import Mathlib

/-!
# FlatGem — verification of the batch file processor

A shallow embedding of the FlatGem desktop application's logic layer:

* `PyPath` — the CPython `posixpath` / `str` primitives the code calls
  (`normpath`, `join`, `relpath`, `splitext`, `basename`, `dirname`,
  `strip`, `lower`), translated function by function from CPython's
  `posixpath.py` / `genericpath.py`, with Python strings modelled as
  `List Char` and the process working directory made explicit.
* `FileProcessor` — `scan_input_folder` and the `run` loop from
  `app/logic/file_processor.py`.  The filesystem, the remote API and the
  worker's `_is_running` / `_is_paused` flags are modelled as explicit
  environment data; exceptions become `Except` / `Option` error strings.
* `GeminiAPIHandler.generate_content` from `app/logic/api_handler.py`.
* `SettingsHandler` window-state save / load from
  `app/logic/settings_handler.py`.
* `UpdateChecker` from `main.py`.

Theorems named `C1_…` to `C10_…` settle the testable properties of the
specification against these definitions.
-/

set_option autoImplicit false

/-- A Python string, modelled as its list of characters. -/
abbrev PyStr := List Char

/-- Python `str.startswith`: prefix test on the character lists. -/
def pyStartswith (s pre : String) : Bool :=
  pre.data.isPrefixOf s.data

namespace PyPath

/-- `str.strip()`: drop whitespace from both ends. -/
def pyStrip (s : PyStr) : PyStr :=
  ((s.dropWhile Char.isWhitespace).reverse.dropWhile Char.isWhitespace).reverse

/-- `str.lower()`, character-wise (adequate for the ASCII extensions compared here). -/
def pyLower (s : PyStr) : PyStr := s.map Char.toLower

/-- `str.rfind(c)`: highest index of `c`, `-1` when absent. -/
def rfind (p : PyStr) (c : Char) : Int :=
  match p.reverse.indexOf? c with
  | none => -1
  | some j => (p.length : Int) - 1 - (j : Int)

/-- `posixpath.splitext`, via `genericpath._splitext` with `sep = '/'`,
no `altsep`, `extsep = '.'`: split at the last dot of the basename,
unless every character of the basename before that dot is itself a dot. -/
def splitext (p : PyStr) : PyStr × PyStr :=
  let sepIndex := rfind p '/'
  let dotIndex := rfind p '.'
  if sepIndex < dotIndex then
    let filenameIndex := sepIndex + 1
    if ((p.drop filenameIndex.toNat).take (dotIndex.toNat - filenameIndex.toNat)).any (· ≠ '.') then
      (p.take dotIndex.toNat, p.drop dotIndex.toNat)
    else (p, [])
  else (p, [])

/-- `posixpath.basename`: everything after the last `'/'`. -/
def basename (p : PyStr) : PyStr := p.drop (rfind p '/' + 1).toNat

/-- `posixpath.dirname`: everything up to the last `'/'`, with trailing
separators stripped unless the head is all separators. -/
def dirname (p : PyStr) : PyStr :=
  let head := p.take (rfind p '/' + 1).toNat
  if head ≠ [] ∧ head ≠ List.replicate head.length '/' then
    (head.reverse.dropWhile (· = '/')).reverse
  else head

/-- `posixpath.join` for one extra component: `join(path, b)`. -/
def join2 (path b : PyStr) : PyStr :=
  if b.take 1 = ['/'] then b
  else if path = [] ∨ path.getLast? = some '/' then path ++ b
  else path ++ '/' :: b

/-- `posixpath.join(*parts)` for a nonempty argument list. -/
def joinAll : List PyStr → PyStr
  | [] => []
  | a :: parts => parts.foldl join2 a

/-- The body of `posixpath.normpath`'s component loop: skip empty and `'.'`
components, append ordinary components, resolve `'..'` against the
accumulator when possible. -/
def normStep (initialSlashes : Nat) (newComps : List PyStr) (comp : PyStr) : List PyStr :=
  if comp = [] ∨ comp = ['.'] then newComps
  else if comp ≠ ['.', '.'] ∨ (initialSlashes = 0 ∧ newComps = []) ∨
          (newComps ≠ [] ∧ newComps.getLast? = some ['.', '.']) then
    newComps ++ [comp]
  else if newComps ≠ [] then newComps.dropLast
  else newComps

/-- `posixpath.normpath`, translated from CPython: collapse empty and `'.'`
components, resolve `'..'`, and remember one or two initial slashes. -/
def normpath (path : PyStr) : PyStr :=
  if path = [] then ['.']
  else
    let initialSlashes : Nat :=
      if path.take 1 = ['/'] then
        if path.take 2 = ['/', '/'] ∧ path.take 3 ≠ ['/', '/', '/'] then 2 else 1
      else 0
    let newComps : List PyStr := (path.splitOn '/').foldl (normStep initialSlashes) []
    let joined := List.replicate initialSlashes '/' ++ List.intercalate ['/'] newComps
    if joined = [] then ['.'] else joined

/-- `posixpath.abspath`, with the working directory `cwd` made explicit. -/
def abspath (path cwd : PyStr) : PyStr :=
  if path.take 1 = ['/'] then normpath path else normpath (join2 cwd path)

/-- `len(os.path.commonprefix([a, b]))` for two component lists. -/
def commonPrefixLen : List PyStr → List PyStr → Nat
  | a :: as, b :: bs => if a = b then commonPrefixLen as bs + 1 else 0
  | _, _ => 0

/-- `posixpath.relpath(path, start)` with the working directory explicit
(Python raises on an empty `path`; every caller here passes a file path). -/
def relpath (path start cwd : PyStr) : PyStr :=
  let start_list := ((abspath start cwd).splitOn '/').filter (· ≠ [])
  let path_list := ((abspath path cwd).splitOn '/').filter (· ≠ [])
  let i := commonPrefixLen start_list path_list
  let rel_list := List.replicate (start_list.length - i) ['.', '.'] ++ path_list.drop i
  if rel_list = [] then ['.'] else joinAll rel_list

/-- Python `<` on strings: strict lexicographic order by codepoint. -/
def lexLt : PyStr → PyStr → Bool
  | [], [] => false
  | [], _ :: _ => true
  | _ :: _, [] => false
  | a :: as, b :: bs => if a < b then true else if b < a then false else lexLt as bs

/-- A well-formed directory-entry name: nonempty, free of the separator,
and not one of the special entries `.` and `..` (real directory listings
never produce those). -/
def normalComp (c : PyStr) : Prop :=
  c ≠ [] ∧ '/' ∉ c ∧ c ≠ ['.'] ∧ c ≠ ['.', '.']

instance (c : PyStr) : Decidable (normalComp c) := by
  unfold normalComp; infer_instance

/-- The absolute path whose successive components are `cs`. -/
def mkAbs (cs : List PyStr) : PyStr := '/' :: List.intercalate ['/'] cs

theorem intercalate_cons_ne_nil (s : Char) (c : PyStr) (rest : List PyStr) (h : rest ≠ []) :
    List.intercalate [s] (c :: rest) = c ++ s :: List.intercalate [s] rest := by
  cases rest with
  | nil => exact absurd rfl h
  | cons d ds => simp [List.intercalate, List.intersperse_cons_cons]

theorem intercalate_cons_structure (c : PyStr) (rest : List PyStr) :
    ∃ tl, List.intercalate ['/'] (c :: rest) = c ++ tl := by
  cases rest with
  | nil => exact ⟨[], by simp [List.intercalate]⟩
  | cons d ds =>
      exact ⟨'/' :: List.intercalate ['/'] (d :: ds),
        intercalate_cons_ne_nil '/' c (d :: ds) (by simp)⟩

theorem mkAbs_eq_intercalate (cs : List PyStr) (h : cs ≠ []) :
    mkAbs cs = List.intercalate ['/'] ([] :: cs) := by
  rw [intercalate_cons_ne_nil '/' [] cs h]; rfl

theorem splitOn_mkAbs (cs : List PyStr) (h : cs ≠ []) (hn : ∀ c ∈ cs, '/' ∉ c) :
    (mkAbs cs).splitOn '/' = [] :: cs := by
  rw [mkAbs_eq_intercalate cs h]
  refine List.splitOn_intercalate ([] :: cs) '/' ?_ (by simp)
  intro l hl
  rcases List.mem_cons.mp hl with rfl | hl
  · simp
  · exact hn l hl

theorem normStep_normal (is : Nat) (acc : List PyStr) (c : PyStr) (hc : normalComp c) :
    normStep is acc c = acc ++ [c] := by
  obtain ⟨h1, _, h2, h3⟩ := hc
  unfold normStep
  rw [if_neg (by simp [h1, h2]), if_pos (Or.inl h3)]

theorem foldl_normStep_normal (is : Nat) (cs : List PyStr) (hn : ∀ c ∈ cs, normalComp c) :
    ∀ acc : List PyStr, cs.foldl (normStep is) acc = acc ++ cs := by
  induction cs with
  | nil => intro acc; simp
  | cons c cs ih =>
      intro acc
      rw [List.foldl_cons, normStep_normal is acc c (hn c (by simp)),
        ih (fun d hd => hn d (by simp [hd]))]
      simp

theorem normpath_mkAbs (cs : List PyStr) (h : cs ≠ []) (hn : ∀ c ∈ cs, normalComp c) :
    normpath (mkAbs cs) = mkAbs cs := by
  obtain ⟨c, rest, rfl⟩ : ∃ c rest, cs = c :: rest := by
    cases cs with
    | nil => exact absurd rfl h
    | cons c rest => exact ⟨c, rest, rfl⟩
  obtain ⟨ch, ctl, hc⟩ : ∃ ch ctl, c = ch :: ctl := by
    cases hcc : c with
    | nil => exact absurd hcc (hn c (by simp)).1
    | cons ch ctl => exact ⟨ch, ctl, rfl⟩
  have hch : ch ≠ '/' := by
    intro hcontr
    exact (hn c (by simp)).2.1 (by rw [hc, hcontr]; simp)
  obtain ⟨tl, htl⟩ := intercalate_cons_structure c rest
  have hshape : mkAbs (c :: rest) = '/' :: ch :: (ctl ++ tl) := by
    rw [mkAbs, htl, hc]; rfl
  unfold normpath
  rw [if_neg (by rw [hshape]; simp)]
  have htake1 : (mkAbs (c :: rest)).take 1 = ['/'] := by rw [hshape]; rfl
  have htake2 : ¬ ((mkAbs (c :: rest)).take 2 = ['/', '/'] ∧
      (mkAbs (c :: rest)).take 3 ≠ ['/', '/', '/']) := by
    rw [hshape]
    intro hcontr
    have : ch = '/' := by
      have := hcontr.1
      simpa using this
    exact hch this
  rw [if_pos htake1, if_neg htake2]
  rw [splitOn_mkAbs (c :: rest) h (fun d hd => (hn d hd).2.1)]
  have hfold : List.foldl (normStep 1) [] ([] :: c :: rest) = c :: rest := by
    rw [List.foldl_cons]
    have hstep : normStep 1 [] [] = [] := by unfold normStep; simp
    rw [hstep, foldl_normStep_normal 1 (c :: rest) hn []]
    simp
  simp only [hfold]
  have hjoin : List.replicate 1 '/' ++ List.intercalate ['/'] (c :: rest)
      = mkAbs (c :: rest) := rfl
  rw [hjoin, if_neg (by rw [hshape]; simp)]

theorem commonPrefixLen_append (l r : List PyStr) :
    commonPrefixLen l (l ++ r) = l.length := by
  induction l with
  | nil => cases r <;> simp [commonPrefixLen]
  | cons a as ih => simp [commonPrefixLen, ih]

theorem join2_normal (a r : PyStr) (ha : a ≠ []) (hlast : a.getLast? ≠ some '/')
    (hr : r ≠ []) (hrs : '/' ∉ r) : join2 a r = a ++ '/' :: r := by
  unfold join2
  have h1 : ¬ r.take 1 = ['/'] := by
    cases r with
    | nil => exact absurd rfl hr
    | cons x xs =>
        simp only [List.take_succ_cons, List.take_zero]
        intro hcontr
        exact hrs (by simp_all)
  rw [if_neg h1, if_neg (by push_neg; exact ⟨ha, hlast⟩)]

theorem foldl_join2_normal (rs : List PyStr) :
    ∀ a : PyStr, a ≠ [] → a.getLast? ≠ some '/' →
    (∀ r ∈ rs, r ≠ [] ∧ '/' ∉ r) →
    rs.foldl join2 a = a ++ (rs.map (fun r => '/' :: r)).flatten := by
  induction rs with
  | nil => intro a _ _ _; simp
  | cons r rs ih =>
      intro a ha hlast hn
      obtain ⟨hr, hrs⟩ := hn r (by simp)
      rw [List.foldl_cons, join2_normal a r ha hlast hr hrs]
      have hne : a ++ '/' :: r ≠ [] := by simp
      have hlast2 : (a ++ '/' :: r).getLast? ≠ some '/' := by
        cases r with
        | nil => exact absurd rfl hr
        | cons x xs =>
            rw [List.getLast?_append, List.getLast?_cons_cons,
              List.getLast?_eq_getLast (x :: xs) (by simp), Option.or_some]
            intro hcontr
            have hmem : (x :: xs).getLast (by simp) ∈ x :: xs := List.getLast_mem _
            rw [Option.some_inj.mp hcontr] at hmem
            exact hrs hmem
      rw [ih (a ++ '/' :: r) hne hlast2 (fun d hd => hn d (by simp [hd]))]
      simp

theorem intercalate_eq_cons_flatten (r : PyStr) (rs : List PyStr) :
    List.intercalate ['/'] (r :: rs) = r ++ (rs.map (fun x => '/' :: x)).flatten := by
  induction rs generalizing r with
  | nil => simp [List.intercalate]
  | cons d ds ih =>
      rw [intercalate_cons_ne_nil '/' r (d :: ds) (by simp), ih d]
      simp

theorem joinAll_normal (rs : List PyStr) (h : rs ≠ [])
    (hn : ∀ r ∈ rs, r ≠ [] ∧ '/' ∉ r) :
    joinAll rs = List.intercalate ['/'] rs := by
  cases rs with
  | nil => exact absurd rfl h
  | cons r rest =>
      obtain ⟨hr, hrs⟩ := hn r (by simp)
      have hlast : r.getLast? ≠ some '/' := by
        rw [List.getLast?_eq_getLast r hr]
        intro hcontr
        have hmem : r.getLast hr ∈ r := List.getLast_mem hr
        rw [Option.some_inj.mp hcontr] at hmem
        exact hrs hmem
      show rest.foldl join2 r = _
      rw [foldl_join2_normal rest r hr hlast (fun d hd => hn d (by simp [hd])),
        intercalate_eq_cons_flatten]

theorem filter_ne_nil_cons_normal (cs : List PyStr) (hcs : ∀ c ∈ cs, normalComp c) :
    (([] : PyStr) :: cs).filter (· ≠ []) = cs := by
  have h0 : (([] : PyStr) :: cs).filter (· ≠ []) = cs.filter (· ≠ []) := by simp
  rw [h0, List.filter_eq_self.mpr]
  intro a ha
  simpa using (hcs a ha).1

/-- The heart of the "mirrored path" property: for a file that lives at
components `rc` under the input directory `mkAbs ic`,
`os.path.relpath(file_path, input_path)` is exactly the joined `rc`. -/
theorem relpath_mkAbs (ic rc : List PyStr) (cwd : PyStr)
    (hic : ic ≠ []) (hrc : rc ≠ [])
    (hn : ∀ c ∈ ic ++ rc, normalComp c) :
    relpath (mkAbs (ic ++ rc)) (mkAbs ic) cwd = List.intercalate ['/'] rc := by
  have hnic : ∀ c ∈ ic, normalComp c := fun c hc => hn c (by simp [hc])
  have hnrc : ∀ c ∈ rc, normalComp c := fun c hc => hn c (by simp [hc])
  have hnall : ∀ c ∈ ic ++ rc, normalComp c := hn
  have habs1 : abspath (mkAbs ic) cwd = mkAbs ic := by
    unfold abspath
    rw [if_pos (by rw [mkAbs]; rfl)]
    exact normpath_mkAbs ic hic hnic
  have habs2 : abspath (mkAbs (ic ++ rc)) cwd = mkAbs (ic ++ rc) := by
    unfold abspath
    rw [if_pos (by rw [mkAbs]; rfl)]
    exact normpath_mkAbs (ic ++ rc) (by simp [hic]) hnall
  unfold relpath
  rw [habs1, habs2, splitOn_mkAbs ic hic (fun c hc => (hnic c hc).2.1),
    splitOn_mkAbs (ic ++ rc) (by simp [hic]) (fun c hc => (hnall c hc).2.1),
    filter_ne_nil_cons_normal ic hnic, filter_ne_nil_cons_normal (ic ++ rc) hnall]
  simp only [commonPrefixLen_append ic rc, Nat.sub_self, List.replicate_zero,
    List.nil_append, List.drop_left]
  rw [if_neg hrc]
  exact joinAll_normal rc hrc (fun d hd => ⟨(hnrc d hd).1, (hnrc d hd).2.1⟩)

end PyPath

namespace GeminiAPIHandler

/-- `GeminiAPIHandler.generate_content` (api_handler.py, lines 44-78).
`modelOk` is whether `set_model` left a model in place (`self.model` not
`None`); `api` is the hosted model call, returning generated text or
raising (`.error` carries the exception message `str(e)`). -/
def generate_content (modelOk : Bool) (api : String → String → Except String String)
    (system_prompt user_prompt : String) : String :=
  if !modelOk then "ERROR: Model is not set or failed to initialize."
  else
    match api system_prompt user_prompt with
    | .ok t => t
    | .error e => "ERROR: An exception occurred during generation: " ++ e

end GeminiAPIHandler

namespace FileProcessor

/-- The external world of one `run`: working directory, the collected file
list (`os.walk` / `os.listdir`, `OSError` as `.error`), file reads, the
remote API, `os.makedirs` and file writes.  Raised exceptions are
modelled as `.error` / `some` carrying the exception message. -/
structure Env where
  cwd : PyStr
  listing : Except String (List PyStr)
  read : PyStr → Except String String
  api : String → String → Except String String
  modelOk : Bool
  mkdirs : PyStr → Option String
  write : PyStr → String → Option String

/-- Output-path construction of one loop iteration (file_processor.py,
lines 146-161): the path of the file relative to the input directory is
re-rooted under the output directory, and a configured (already stripped)
non-empty output extension replaces the `splitext` extension, gaining a
leading dot when it lacks one. -/
def computeOutputPath (cwd input_path output_path output_extension file_path : PyStr) :
    PyStr :=
  let relative_path := PyPath.relpath file_path input_path cwd
  let base_name := (PyPath.splitext relative_path).1
  if output_extension ≠ [] then
    let output_extension :=
      if output_extension.take 1 ≠ ['.'] then '.' :: output_extension else output_extension
    PyPath.join2 output_path (base_name ++ output_extension)
  else
    PyPath.join2 output_path relative_path

end FileProcessor

/-- **C1.**  For every processed file — living at components `rc` below the
input directory `PyPath.mkAbs ic` — the computed output file path is the
output directory joined (`os.path.join`) with the file's path relative to
the input directory; when the stripped configured output extension is
non-empty it replaces the `splitext` extension of that relative path,
gaining a leading dot when it lacks one, and when it is empty the
relative path is kept unchanged. -/
theorem C1_output_path_mirrors_and_substitutes
    (cwd output_path ext : PyStr) (ic rc : List PyStr)
    (hic : ic ≠ []) (hrc : rc ≠ [])
    (hn : ∀ c ∈ ic ++ rc, PyPath.normalComp c) :
    FileProcessor.computeOutputPath cwd (PyPath.mkAbs ic) output_path
        (PyPath.pyStrip ext) (PyPath.mkAbs (ic ++ rc)) =
      (let rel := List.intercalate ['/'] rc
       let e := PyPath.pyStrip ext
       if e ≠ [] then
         PyPath.join2 output_path
           ((PyPath.splitext rel).1 ++ (if e.take 1 ≠ ['.'] then '.' :: e else e))
       else PyPath.join2 output_path rel) := by
  unfold FileProcessor.computeOutputPath
  rw [PyPath.relpath_mkAbs ic rc cwd hic hrc hn]

/-- Witness for C1 at a concrete instance: input `/in`, file `sub/a.txt`,
output directory `/out`, configured extension `md ` (note the missing dot
and the stray blank): the output file path is `/out/sub/a.md`. -/
theorem C1_witness :
    ((["in".data] : List PyStr) ≠ [] ∧ (["sub".data, "a.txt".data] : List PyStr) ≠ [] ∧
      (∀ c ∈ ["in".data] ++ ["sub".data, "a.txt".data], PyPath.normalComp c)) ∧
    FileProcessor.computeOutputPath "/cwd".data (PyPath.mkAbs ["in".data]) "/out".data
        (PyPath.pyStrip "md ".data) (PyPath.mkAbs (["in".data] ++ ["sub".data, "a.txt".data])) =
      (let rel := List.intercalate ['/'] ["sub".data, "a.txt".data]
       let e := PyPath.pyStrip "md ".data
       if e ≠ [] then
         PyPath.join2 "/out".data
           ((PyPath.splitext rel).1 ++ (if e.take 1 ≠ ['.'] then '.' :: e else e))
       else PyPath.join2 "/out".data rel) :=
  ⟨⟨by decide, by decide, by decide⟩,
    C1_output_path_mirrors_and_substitutes "/cwd".data "/out".data "md ".data
      ["in".data] ["sub".data, "a.txt".data] (by decide) (by decide) (by decide)⟩

namespace FileProcessor

/-- Observable effects of the run loop, in emission order: the
`progress_updated` signal, the API call of line 135, a completed file
write, the pacing `time.sleep(processing_delay)` of line 176, one
`time.sleep(0.5)` of the pause busy-wait (line 122), and the
`processing_finished` signal. -/
inductive Ev where
  | progress (current total : Nat) (name : PyStr)
  | apiSend (name : PyStr)
  | written (path : PyStr) (content : String)
  | slept (seconds : Nat)
  | pauseSlept
  | finishedMsg (message : String) (log : List String)
  deriving DecidableEq

/-- Result of one iteration's `try` block. -/
inductive ItemResult where
  | success (outPath : PyStr) (content : String)
  | failed (message : String)
  deriving DecidableEq

/-- The error-log entry format shared by lines 141 and 170:
`f"File: {original_file_name} | {tail}"`. -/
def fileErrorMsg (name : PyStr) (tail : String) : String :=
  "File: " ++ String.mk name ++ " | " ++ tail

/-- One iteration's `try`/`except` body (file_processor.py, lines
130-173), after the progress signal: read the file, call the API, treat
an `ERROR:`-prefixed reply as a failure, otherwise build the output path,
create its directory and write; any raised exception becomes the
`critical error` log entry. Returns the outcome and the events emitted. -/
def processItem (env : Env) (input_path output_path output_extension : PyStr)
    (final_system_prompt : String) (file_path : PyStr) : ItemResult × List Ev :=
  let name := PyPath.basename file_path
  match env.read file_path with
  | .error e =>
      (.failed (fileErrorMsg name
        ("A file system or other critical error occurred: " ++ e)), [])
  | .ok file_content =>
      let processed :=
        GeminiAPIHandler.generate_content env.modelOk env.api final_system_prompt file_content
      if pyStartswith processed "ERROR:" then
        (.failed (fileErrorMsg name processed), [.apiSend name])
      else
        let output_file_path :=
          computeOutputPath env.cwd input_path output_path output_extension file_path
        match env.mkdirs (PyPath.dirname output_file_path) with
        | some e =>
            (.failed (fileErrorMsg name
              ("A file system or other critical error occurred: " ++ e)), [.apiSend name])
        | none =>
            match env.write output_file_path processed with
            | some e =>
                (.failed (fileErrorMsg name
                  ("A file system or other critical error occurred: " ++ e)), [.apiSend name])
            | none => (.success output_file_path processed,
                [.apiSend name, .written output_file_path processed])

/-- The worker's `_is_running` / `_is_paused` flags as functions of a poll
counter: the UI thread (`stop`, `toggle_pause`) may flip them between any
two reads, so each poll observes an arbitrary value. -/
structure Flags where
  running : Nat → Bool
  paused : Nat → Bool

/-- Result of the pause busy-wait: proceed with the iteration, stop (the
running flag was found cleared after a sleep), or still waiting when the
unfolding fuel ran out.  Carries the poll counter and the number of
`time.sleep(0.5)` calls made. -/
inductive PauseRes where
  | proceed (t sleeps : Nat)
  | stopped (t sleeps : Nat)
  | fuelOut (t sleeps : Nat)
  deriving DecidableEq

/-- The pause busy-wait (lines 121-125): while `_is_paused`, sleep half a
second and bail out if `_is_running` was cleared meanwhile.  `fuel`
bounds how many times the loop is unfolded; a `fuelOut` result means the
wait was still going after `fuel` rounds. -/
def pauseWait (flags : Flags) : Nat → Nat → Nat → PauseRes
  | fuel, t, sleeps =>
    if flags.paused t = false then .proceed (t + 1) sleeps
    else
      match fuel with
      | 0 => .fuelOut (t + 1) sleeps
      | fuel + 1 =>
        if flags.running (t + 1) = false then .stopped (t + 2) (sleeps + 1)
        else pauseWait flags fuel (t + 2) (sleeps + 1)

/-- Loop state: poll counter, `error_log`, `success_count`, and the events
emitted so far. -/
structure St where
  t : Nat
  log : List String
  succ : Nat
  evs : List Ev
  deriving DecidableEq

/-- Whether the loop returned (`done`) or was still inside the pause
busy-wait when the fuel ran out (`diverged`). -/
inductive Outcome where
  | done
  | diverged
  deriving DecidableEq

/-- The per-run constants read from settings before the loop. -/
structure Ctx where
  input_path : PyStr
  output_path : PyStr
  output_extension : PyStr
  final_system_prompt : String
  processing_delay : Nat
  total : Nat

/-- The summary of lines 179-183. -/
def summaryMessage (success_count total : Nat) (error_log : List String) : String :=
  if error_log = [] then
    "Successfully processed " ++ toString success_count ++ " of " ++ toString total ++ " files."
  else
    "Processing finished with issues. \nProcessed: " ++ toString success_count ++
      " | Failed: " ++ toString error_log.length

/-- The `for` loop of `run` (lines 117-184) over the remaining
`(index, file_path)` items, then the final `if self._is_running:` summary
emission (lines 178-184).  Each flag read consumes one tick of the poll
counter.  A failed item appends its message to the error log and
`continue`s — skipping the pacing sleep of lines 175-176, which is
reached only on success and only before the last index. -/
def runFrom (env : Env) (flags : Flags) (ctx : Ctx) (pfuel : Nat) :
    List (Nat × PyStr) → St → St × Outcome
  | [], st =>
      if flags.running st.t then
        ({ st with
            t := st.t + 1
            evs := st.evs ++ [.finishedMsg (summaryMessage st.succ ctx.total st.log) st.log] },
          .done)
      else ({ st with t := st.t + 1 }, .done)
  | (i, file_path) :: rest, st =>
      if flags.running st.t = false then
        ({ st with
            t := st.t + 1
            evs := st.evs ++ [.finishedMsg "Processing stopped by user." st.log] }, .done)
      else
        match pauseWait flags pfuel (st.t + 1) 0 with
        | .stopped t' s =>
            ({ st with
                t := t'
                evs := st.evs ++ List.replicate s .pauseSlept ++
                  [.finishedMsg "Processing stopped by user." st.log] }, .done)
        | .fuelOut t' s =>
            ({ st with
                t := t'
                evs := st.evs ++ List.replicate s .pauseSlept }, .diverged)
        | .proceed t' s =>
            let st1 : St := { st with
              t := t'
              evs := st.evs ++ List.replicate s .pauseSlept ++
                [.progress (i + 1) ctx.total (PyPath.basename file_path)] }
            match processItem env ctx.input_path ctx.output_path ctx.output_extension
                ctx.final_system_prompt file_path with
            | (.failed msg, pevs) =>
                runFrom env flags ctx pfuel rest
                  { st1 with
                    log := st1.log ++ [msg]
                    evs := st1.evs ++ pevs }
            | (.success _ _, pevs) =>
                let st2 := { st1 with
                  succ := st1.succ + 1
                  evs := st1.evs ++ pevs }
                let st3 := if i < ctx.total - 1 then
                    { st2 with evs := st2.evs ++ [.slept ctx.processing_delay] }
                  else st2
                runFrom env flags ctx pfuel rest st3

/-- The thinking-mode instruction prepended at lines 89-96. -/
def thinkingInstruction : String :=
  "Before you begin, first think step-by-step to thoroughly understand the user's request below. " ++
  "Formulate a detailed, internal plan to process the text according to all the provided rules. " ++
  "After you have a clear plan, execute it on the text. " ++
  "CRITICAL INSTRUCTION: Your final output must contain ONLY the fully processed text itself. " ++
  "Do NOT include your thoughts, your plan, or any other conversational phrases or markdown formatting in your response."

/-- The settings keys read by `run` (lines 68-75); `none` models a missing
key, and the guard of line 80 treats `None` and the empty string alike. -/
structure Settings where
  input_path : Option PyStr
  output_path : Option PyStr
  prompt_text : Option String
  selected_model_name : Option String
  output_extension : PyStr
  processing_delay : Nat
  thinking_mode : Bool
  process_subfolders : Bool

/-- `FileProcessor.run` (lines 66-184) end to end: settings guard, prompt
assembly, file collection (with its `OSError` guard), the empty-batch
early return, then the loop. -/
def run (env : Env) (flags : Flags) (s : Settings) (pfuel : Nat) : St × Outcome :=
  let st0 : St := ⟨0, [], 0, []⟩
  let input_path := s.input_path.getD []
  let output_path := s.output_path.getD []
  let system_prompt := s.prompt_text.getD ""
  let model_name := s.selected_model_name.getD ""
  let output_extension := PyPath.pyStrip s.output_extension
  if input_path = [] ∨ output_path = [] ∨ system_prompt = "" ∨ model_name = "" then
    ({ st0 with evs := [.finishedMsg "Error: Missing required settings." []] }, .done)
  else
    let final_system_prompt :=
      if s.thinking_mode then thinkingInstruction ++ "\n\n---\n\n" ++ system_prompt
      else system_prompt
    match env.listing with
    | .error e =>
        ({ st0 with evs := [.finishedMsg ("Error reading input folder: " ++ e) []] }, .done)
    | .ok files =>
        if files.length = 0 then
          ({ st0 with evs := [.finishedMsg "Processing finished: No files to process." []] },
            .done)
        else
          runFrom env flags
            ⟨input_path, output_path, output_extension, final_system_prompt,
              s.processing_delay, files.length⟩ pfuel files.enum st0

end FileProcessor

namespace FileProcessor

/-- Flag profile of an undisturbed run: never stopped, never paused. -/
def alwaysRun : Flags := ⟨fun _ => true, fun _ => false⟩

/-- The initial loop state. -/
def stZero : St := ⟨0, [], 0, []⟩

/-- The error-log entry an item contributes, `none` on success. -/
def itemErr (env : Env) (ctx : Ctx) (it : Nat × PyStr) : Option String :=
  match (processItem env ctx.input_path ctx.output_path ctx.output_extension
      ctx.final_system_prompt it.2).1 with
  | .failed msg => some msg
  | .success _ _ => none

/-- The events one iteration emits when never paused: the progress signal,
the try-block events, and — on success only, before the last index — the
pacing sleep. -/
def itemBlock (env : Env) (ctx : Ctx) (it : Nat × PyStr) : List Ev :=
  Ev.progress (it.1 + 1) ctx.total (PyPath.basename it.2) ::
    (match processItem env ctx.input_path ctx.output_path ctx.output_extension
        ctx.final_system_prompt it.2 with
     | (.failed _, pevs) => pevs
     | (.success _ _, pevs) =>
         pevs ++ if it.1 < ctx.total - 1 then [.slept ctx.processing_delay] else [])

theorem pauseWait_not_paused (flags : Flags) (fuel t s : Nat)
    (h : flags.paused t = false) : pauseWait flags fuel t s = .proceed (t + 1) s := by
  unfold pauseWait
  rw [if_pos h]

theorem runFrom_alwaysRun (env : Env) (ctx : Ctx) (pfuel : Nat) :
    ∀ (items : List (Nat × PyStr)) (st : St),
    runFrom env alwaysRun ctx pfuel items st =
      ({ t := st.t + 2 * items.length + 1
         log := st.log ++ items.filterMap (itemErr env ctx)
         succ := st.succ + items.countP (fun it => (itemErr env ctx it).isNone)
         evs := st.evs ++ (items.map (itemBlock env ctx)).flatten ++
           [.finishedMsg
             (summaryMessage (st.succ + items.countP (fun it => (itemErr env ctx it).isNone))
               ctx.total (st.log ++ items.filterMap (itemErr env ctx)))
             (st.log ++ items.filterMap (itemErr env ctx))] }, .done) := by
  intro items
  induction items with
  | nil =>
      intro st
      unfold runFrom
      rw [if_pos (show alwaysRun.running st.t = true from rfl)]
      simp
  | cons it rest ih =>
      intro st
      obtain ⟨i, fp⟩ := it
      show runFrom env alwaysRun ctx pfuel ((i, fp) :: rest) st = _
      unfold runFrom
      rw [if_neg (show ¬ alwaysRun.running st.t = false by simp [alwaysRun]),
        pauseWait_not_paused alwaysRun pfuel (st.t + 1) 0 rfl]
      rcases hpi : processItem env ctx.input_path ctx.output_path ctx.output_extension
          ctx.final_system_prompt fp with ⟨res, pevs⟩
      cases res with
      | failed msg =>
          have herr : itemErr env ctx (i, fp) = some msg := by
            unfold itemErr
            rw [hpi]
          have hblock : itemBlock env ctx (i, fp) =
              Ev.progress (i + 1) ctx.total (PyPath.basename fp) :: pevs := by
            unfold itemBlock
            rw [hpi]
          simp only []
          rw [ih]
          simp [herr, hblock, Nat.mul_succ]
          omega
      | success op oc =>
          have herr : itemErr env ctx (i, fp) = none := by
            unfold itemErr
            rw [hpi]
          have hblock : itemBlock env ctx (i, fp) =
              Ev.progress (i + 1) ctx.total (PyPath.basename fp) ::
                (pevs ++ if i < ctx.total - 1 then [Ev.slept ctx.processing_delay] else []) := by
            unfold itemBlock
            rw [hpi]
          simp only []
          by_cases hi : i < ctx.total - 1
          · rw [if_pos hi]
            rw [ih]
            simp [herr, hblock, hi, Nat.mul_succ]
            refine ⟨by omega, by omega, ?_⟩
            congr 1
            omega
          · rw [if_neg hi]
            rw [ih]
            simp [herr, hblock, hi, Nat.mul_succ]
            refine ⟨by omega, by omega, ?_⟩
            congr 1
            omega

end FileProcessor

namespace FileProcessor

theorem processItem_failed_shape (env : Env) (a b c : PyStr) (d : String) (fp : PyStr)
    (msg : String) (pevs : List Ev)
    (h : processItem env a b c d fp = (.failed msg, pevs)) :
    (∃ r, msg = fileErrorMsg (PyPath.basename fp) r) ∧
    (∀ p cnt, Ev.written p cnt ∉ pevs) := by
  unfold processItem at h
  rcases hr : env.read fp with e | content <;> rw [hr] at h <;> simp only [] at h
  · injection h with h1 h2
    injection h1 with h1
    subst h1 h2
    exact ⟨⟨_, rfl⟩, by simp⟩
  · by_cases hs : pyStartswith
        (GeminiAPIHandler.generate_content env.modelOk env.api d content) "ERROR:"
    · rw [if_pos hs] at h
      injection h with h1 h2
      injection h1 with h1
      subst h1 h2
      exact ⟨⟨_, rfl⟩, by simp⟩
    · rw [if_neg hs] at h
      rcases hm : env.mkdirs (PyPath.dirname (computeOutputPath env.cwd a b c fp)) with
        _ | e <;> rw [hm] at h <;> simp only [] at h
      · rcases hw : env.write (computeOutputPath env.cwd a b c fp)
            (GeminiAPIHandler.generate_content env.modelOk env.api d content) with
          _ | e <;> rw [hw] at h <;> simp only [] at h
        · injection h with h1 h2
          injection h1
        · injection h with h1 h2
          injection h1 with h1
          subst h1 h2
          exact ⟨⟨_, rfl⟩, by simp⟩
      · injection h with h1 h2
        injection h1 with h1
        subst h1 h2
        exact ⟨⟨_, rfl⟩, by simp⟩

end FileProcessor

namespace FileProcessor

theorem get_mem_enum {α : Type} (l : List α) (k : Nat) (hk : k < l.length) :
    (k, l.get ⟨k, hk⟩) ∈ l.enum := by
  have h1 : l.enum.get ⟨k, by simpa using hk⟩ = (k, l.get ⟨k, hk⟩) := by
    simp [List.get_eq_getElem, List.getElem_enum]
  rw [← h1]
  exact List.get_mem ..

end FileProcessor

/-- **C2.**  When processing one file fails — its `try` body returns
`failed`, covering an `ERROR:`-prefixed API reply as well as a raised
read / makedirs / write exception — then, under flags that never stop or
pause: the loop still ends normally; the failure message is in the final
error log and names that file (`File: {name} | …`); that iteration emits
no `written` event; the whole trace is the per-file blocks followed by a
single final `processing_finished` event carrying the accumulated error
log; and every file of the batch, including those after the failed one,
still gets its `progress_updated` signal. -/
theorem C2_failed_file_is_logged_and_loop_continues
    (env : FileProcessor.Env) (ctx : FileProcessor.Ctx) (pfuel : Nat) (files : List PyStr)
    (k : Nat) (hk : k < files.length) (msg : String) (pevs : List FileProcessor.Ev)
    (hfail : FileProcessor.processItem env ctx.input_path ctx.output_path ctx.output_extension
        ctx.final_system_prompt (files.get ⟨k, hk⟩) = (.failed msg, pevs)) :
    (FileProcessor.runFrom env FileProcessor.alwaysRun ctx pfuel files.enum
        FileProcessor.stZero).2 = .done ∧
    msg ∈ (FileProcessor.runFrom env FileProcessor.alwaysRun ctx pfuel files.enum
        FileProcessor.stZero).1.log ∧
    (∃ r, msg = FileProcessor.fileErrorMsg (PyPath.basename (files.get ⟨k, hk⟩)) r) ∧
    (∀ p cnt, FileProcessor.Ev.written p cnt ∉
        FileProcessor.itemBlock env ctx (k, files.get ⟨k, hk⟩)) ∧
    (FileProcessor.runFrom env FileProcessor.alwaysRun ctx pfuel files.enum
        FileProcessor.stZero).1.evs =
      (files.enum.map (FileProcessor.itemBlock env ctx)).flatten ++
        [.finishedMsg
          (FileProcessor.summaryMessage
            (FileProcessor.runFrom env FileProcessor.alwaysRun ctx pfuel files.enum
              FileProcessor.stZero).1.succ ctx.total
            (FileProcessor.runFrom env FileProcessor.alwaysRun ctx pfuel files.enum
              FileProcessor.stZero).1.log)
          (FileProcessor.runFrom env FileProcessor.alwaysRun ctx pfuel files.enum
            FileProcessor.stZero).1.log] ∧
    (∀ j (hj : j < files.length),
      FileProcessor.Ev.progress (j + 1) ctx.total (PyPath.basename (files.get ⟨j, hj⟩)) ∈
        (FileProcessor.runFrom env FileProcessor.alwaysRun ctx pfuel files.enum
          FileProcessor.stZero).1.evs) := by
  have hcf := FileProcessor.runFrom_alwaysRun env ctx pfuel files.enum FileProcessor.stZero
  have hitem : FileProcessor.itemErr env ctx (k, files.get ⟨k, hk⟩) = some msg := by
    unfold FileProcessor.itemErr
    rw [hfail]
  have hblock : FileProcessor.itemBlock env ctx (k, files.get ⟨k, hk⟩) =
      FileProcessor.Ev.progress (k + 1) ctx.total (PyPath.basename (files.get ⟨k, hk⟩)) ::
        pevs := by
    unfold FileProcessor.itemBlock
    rw [hfail]
  have hmemk : (k, files.get ⟨k, hk⟩) ∈ files.enum := FileProcessor.get_mem_enum files k hk
  obtain ⟨hshape, hnw⟩ :=
    FileProcessor.processItem_failed_shape env _ _ _ _ _ msg pevs hfail
  refine ⟨by rw [hcf], ?_, hshape, ?_, ?_, ?_⟩
  · rw [hcf]
    exact List.mem_filterMap.mpr ⟨(k, files.get ⟨k, hk⟩), hmemk, hitem⟩
  · rw [hblock]
    intro p cnt hmem
    rcases List.mem_cons.mp hmem with hcontr | hcontr
    · exact absurd hcontr (by simp)
    · exact hnw p cnt hcontr
  · rw [hcf]
    simp [FileProcessor.stZero]
  · intro j hj
    rw [hcf]
    refine List.mem_append.mpr (Or.inl (List.mem_append.mpr (Or.inr ?_)))
    refine List.mem_flatten.mpr
      ⟨FileProcessor.itemBlock env ctx (j, files.get ⟨j, hj⟩),
        List.mem_map.mpr ⟨(j, files.get ⟨j, hj⟩),
          FileProcessor.get_mem_enum files j hj, rfl⟩, ?_⟩
    unfold FileProcessor.itemBlock
    exact List.mem_cons_self _ _

namespace FileProcessor

/-- A concrete two-file environment whose API replies with an
`ERROR:`-prefixed string, so every item fails. -/
def envDemo : Env :=
  { cwd := "/cwd".data
    listing := .ok ["/in/a.txt".data, "/in/b.txt".data]
    read := fun _ => .ok "content"
    api := fun _ _ => .ok "ERROR: boom"
    modelOk := true
    mkdirs := fun _ => none
    write := fun _ _ => none }

/-- The loop context matching `envDemo`. -/
def ctxDemo : Ctx := ⟨"/in".data, "/out".data, [], "sys", 1, 2⟩

end FileProcessor

/-- Witness for C2: in the concrete two-file run of `envDemo`, file 0
fails with the `ERROR:`-prefixed reply, and the conclusion holds. -/
theorem C2_witness :
    ((0 : Nat) < (["/in/a.txt".data, "/in/b.txt".data] : List PyStr).length ∧
      FileProcessor.processItem FileProcessor.envDemo FileProcessor.ctxDemo.input_path
        FileProcessor.ctxDemo.output_path FileProcessor.ctxDemo.output_extension
        FileProcessor.ctxDemo.final_system_prompt
        ((["/in/a.txt".data, "/in/b.txt".data] : List PyStr).get ⟨0, by decide⟩) =
        (.failed (FileProcessor.fileErrorMsg "a.txt".data "ERROR: boom"),
          [.apiSend "a.txt".data])) ∧
    ((FileProcessor.runFrom FileProcessor.envDemo FileProcessor.alwaysRun FileProcessor.ctxDemo 0
        (["/in/a.txt".data, "/in/b.txt".data] : List PyStr).enum
        FileProcessor.stZero).2 = .done ∧
      FileProcessor.fileErrorMsg "a.txt".data "ERROR: boom" ∈
        (FileProcessor.runFrom FileProcessor.envDemo FileProcessor.alwaysRun FileProcessor.ctxDemo 0
          (["/in/a.txt".data, "/in/b.txt".data] : List PyStr).enum
          FileProcessor.stZero).1.log ∧
      (∃ r, FileProcessor.fileErrorMsg "a.txt".data "ERROR: boom" =
        FileProcessor.fileErrorMsg
          (PyPath.basename ((["/in/a.txt".data, "/in/b.txt".data] : List PyStr).get
            ⟨0, by decide⟩)) r) ∧
      (∀ p cnt, FileProcessor.Ev.written p cnt ∉
          FileProcessor.itemBlock FileProcessor.envDemo FileProcessor.ctxDemo
            (0, (["/in/a.txt".data, "/in/b.txt".data] : List PyStr).get ⟨0, by decide⟩)) ∧
      (FileProcessor.runFrom FileProcessor.envDemo FileProcessor.alwaysRun FileProcessor.ctxDemo 0
          (["/in/a.txt".data, "/in/b.txt".data] : List PyStr).enum
          FileProcessor.stZero).1.evs =
        ((["/in/a.txt".data, "/in/b.txt".data] : List PyStr).enum.map
            (FileProcessor.itemBlock FileProcessor.envDemo FileProcessor.ctxDemo)).flatten ++
          [.finishedMsg
            (FileProcessor.summaryMessage
              (FileProcessor.runFrom FileProcessor.envDemo FileProcessor.alwaysRun
                FileProcessor.ctxDemo 0
                (["/in/a.txt".data, "/in/b.txt".data] : List PyStr).enum
                FileProcessor.stZero).1.succ FileProcessor.ctxDemo.total
              (FileProcessor.runFrom FileProcessor.envDemo FileProcessor.alwaysRun
                FileProcessor.ctxDemo 0
                (["/in/a.txt".data, "/in/b.txt".data] : List PyStr).enum
                FileProcessor.stZero).1.log)
            (FileProcessor.runFrom FileProcessor.envDemo FileProcessor.alwaysRun
              FileProcessor.ctxDemo 0
              (["/in/a.txt".data, "/in/b.txt".data] : List PyStr).enum
              FileProcessor.stZero).1.log] ∧
      (∀ j (hj : j < (["/in/a.txt".data, "/in/b.txt".data] : List PyStr).length),
        FileProcessor.Ev.progress (j + 1) FileProcessor.ctxDemo.total
            (PyPath.basename ((["/in/a.txt".data, "/in/b.txt".data] : List PyStr).get
              ⟨j, hj⟩)) ∈
          (FileProcessor.runFrom FileProcessor.envDemo FileProcessor.alwaysRun
            FileProcessor.ctxDemo 0
            (["/in/a.txt".data, "/in/b.txt".data] : List PyStr).enum
            FileProcessor.stZero).1.evs)) :=
  ⟨⟨by decide, by rfl⟩,
    C2_failed_file_is_logged_and_loop_continues FileProcessor.envDemo FileProcessor.ctxDemo 0
      ["/in/a.txt".data, "/in/b.txt".data] 0 (by decide)
      (FileProcessor.fileErrorMsg "a.txt".data "ERROR: boom") [.apiSend "a.txt".data] (by rfl)⟩

namespace FileProcessor

/-- Recognizer for the pacing-sleep event. -/
def isSleptEv : Ev → Bool
  | .slept _ => true
  | _ => false

theorem processItem_pevs_cases (env : Env) (a b c : PyStr) (d : String) (fp : PyStr) :
    (processItem env a b c d fp).2 = [] ∨
    (processItem env a b c d fp).2 = [.apiSend (PyPath.basename fp)] ∨
    ∃ p cnt, (processItem env a b c d fp).2 =
      [.apiSend (PyPath.basename fp), .written p cnt] := by
  unfold processItem
  rcases env.read fp with e | content
  · simp
  · simp only []
    by_cases hs : pyStartswith
        (GeminiAPIHandler.generate_content env.modelOk env.api d content) "ERROR:"
    · rw [if_pos hs]
      simp
    · rw [if_neg hs]
      rcases env.mkdirs (PyPath.dirname (computeOutputPath env.cwd a b c fp)) with _ | e
      · simp only []
        rcases env.write (computeOutputPath env.cwd a b c fp)
            (GeminiAPIHandler.generate_content env.modelOk env.api d content) with _ | e
        · simp
        · simp
      · simp

theorem pevs_countP_slept_zero (env : Env) (a b c : PyStr) (d : String) (fp : PyStr) :
    (processItem env a b c d fp).2.countP isSleptEv = 0 := by
  rcases processItem_pevs_cases env a b c d fp with h | h | ⟨p, cnt, h⟩ <;>
    rw [h] <;> simp [List.countP_cons, isSleptEv]

theorem itemBlock_countP_slept (env : Env) (ctx : Ctx) (it : Nat × PyStr) :
    (itemBlock env ctx it).countP isSleptEv =
      if (itemErr env ctx it).isNone ∧ it.1 < ctx.total - 1 then 1 else 0 := by
  have hz := pevs_countP_slept_zero env ctx.input_path ctx.output_path ctx.output_extension
    ctx.final_system_prompt it.2
  rcases hpi : processItem env ctx.input_path ctx.output_path ctx.output_extension
      ctx.final_system_prompt it.2 with ⟨res, pevs⟩
  rw [hpi] at hz
  cases res with
  | failed msg =>
      have herr : itemErr env ctx it = some msg := by
        unfold itemErr
        rw [hpi]
      have hblock : itemBlock env ctx it =
          Ev.progress (it.1 + 1) ctx.total (PyPath.basename it.2) :: pevs := by
        unfold itemBlock
        rw [hpi]
      rw [hblock, herr]
      simp [List.countP_cons, hz, isSleptEv]
  | success op oc =>
      have herr : itemErr env ctx it = none := by
        unfold itemErr
        rw [hpi]
      have hblock : itemBlock env ctx it =
          Ev.progress (it.1 + 1) ctx.total (PyPath.basename it.2) ::
            (pevs ++ if it.1 < ctx.total - 1 then [Ev.slept ctx.processing_delay] else []) := by
        unfold itemBlock
        rw [hpi]
      rw [hblock, herr]
      by_cases hi : it.1 < ctx.total - 1
      · simp [List.countP_cons, List.countP_append, hz, isSleptEv, hi]
      · simp [List.countP_cons, List.countP_append, hz, isSleptEv, hi]

theorem flatten_blocks_countP_slept (env : Env) (ctx : Ctx) :
    ∀ its : List (Nat × PyStr),
    ((its.map (itemBlock env ctx)).flatten).countP isSleptEv =
      its.countP (fun it => (itemErr env ctx it).isNone && decide (it.1 < ctx.total - 1)) := by
  intro its
  induction its with
  | nil => simp
  | cons it its ih =>
      simp only [List.map_cons, List.flatten_cons, List.countP_append, List.countP_cons, ih,
        itemBlock_countP_slept]
      by_cases h1 : (itemErr env ctx it).isNone <;>
        by_cases h2 : it.1 < ctx.total - 1 <;>
          simp [h1, h2, Nat.add_comm]

end FileProcessor

/-- Counterexample to **C6** as stated: in the two-file run of `envDemo`
the first file fails (its `itemErr` is `some _`), and the trace contains
no pacing-sleep event at all — the `continue` of lines 140-144 skips the
`time.sleep(processing_delay)` of lines 175-176 — although the claim
("the pacing sleep occurs between every pair of consecutively processed
files regardless of whether the file succeeded or failed") requires one
sleep between the two files. -/
theorem C6_counterexample :
    (["/in/a.txt".data, "/in/b.txt".data] : List PyStr).length = 2 ∧
    (FileProcessor.itemErr FileProcessor.envDemo FileProcessor.ctxDemo
      (0, "/in/a.txt".data)).isSome = true ∧
    (FileProcessor.runFrom FileProcessor.envDemo FileProcessor.alwaysRun FileProcessor.ctxDemo 0
      (["/in/a.txt".data, "/in/b.txt".data] : List PyStr).enum
      FileProcessor.stZero).1.evs.countP FileProcessor.isSleptEv = 0 :=
  ⟨by decide, by decide, by decide⟩

/-- **C6 (amended).**  In an undisturbed run, the pacing sleep of
`processing_delay` seconds occurs after an item exactly when that item was
processed successfully and its index is not the last of the batch; a
failed item reaches `continue` first, so no delay follows it. -/
theorem C6_amended_delay_only_after_successful_items
    (env : FileProcessor.Env) (ctx : FileProcessor.Ctx) (pfuel : Nat)
    (items : List (Nat × PyStr)) :
    (FileProcessor.runFrom env FileProcessor.alwaysRun ctx pfuel items
        FileProcessor.stZero).1.evs.countP FileProcessor.isSleptEv =
      items.countP (fun it =>
        (FileProcessor.itemErr env ctx it).isNone && decide (it.1 < ctx.total - 1)) ∧
    (∀ it ∈ items,
      (FileProcessor.Ev.slept ctx.processing_delay ∈ FileProcessor.itemBlock env ctx it ↔
        (FileProcessor.itemErr env ctx it = none ∧ it.1 < ctx.total - 1))) := by
  constructor
  · rw [FileProcessor.runFrom_alwaysRun]
    simp only [FileProcessor.stZero, List.nil_append, List.countP_append]
    rw [FileProcessor.flatten_blocks_countP_slept]
    simp [FileProcessor.isSleptEv]
  · intro it hmem
    have hz := FileProcessor.pevs_countP_slept_zero env ctx.input_path ctx.output_path
      ctx.output_extension ctx.final_system_prompt it.2
    have hnotin : FileProcessor.Ev.slept ctx.processing_delay ∉
        (FileProcessor.processItem env ctx.input_path ctx.output_path ctx.output_extension
          ctx.final_system_prompt it.2).2 := by
      intro hcontr
      have := List.countP_pos_iff (p := FileProcessor.isSleptEv) |>.mpr
        ⟨_, hcontr, by simp [FileProcessor.isSleptEv]⟩
      omega
    rcases hpi : FileProcessor.processItem env ctx.input_path ctx.output_path
        ctx.output_extension ctx.final_system_prompt it.2 with ⟨res, pevs⟩
    rw [hpi] at hnotin
    cases res with
    | failed msg =>
        have herr : FileProcessor.itemErr env ctx it = some msg := by
          unfold FileProcessor.itemErr
          rw [hpi]
        have hblock : FileProcessor.itemBlock env ctx it =
            FileProcessor.Ev.progress (it.1 + 1) ctx.total (PyPath.basename it.2) :: pevs := by
          unfold FileProcessor.itemBlock
          rw [hpi]
        rw [hblock, herr]
        simp only [List.mem_cons]
        constructor
        · rintro (h | h)
          · exact absurd h (by simp)
          · exact absurd h hnotin
        · rintro ⟨h, -⟩
          exact absurd h (by simp)
    | success op oc =>
        have herr : FileProcessor.itemErr env ctx it = none := by
          unfold FileProcessor.itemErr
          rw [hpi]
        have hblock : FileProcessor.itemBlock env ctx it =
            FileProcessor.Ev.progress (it.1 + 1) ctx.total (PyPath.basename it.2) ::
              (pevs ++ if it.1 < ctx.total - 1 then
                [FileProcessor.Ev.slept ctx.processing_delay] else []) := by
          unfold FileProcessor.itemBlock
          rw [hpi]
        rw [hblock, herr]
        by_cases hi : it.1 < ctx.total - 1
        · simp [hi]
        · simp only [if_neg hi, List.mem_cons, List.mem_append]
          constructor
          · rintro (h | h | h)
            · exact absurd h (by simp)
            · exact absurd h hnotin
            · simp at h
          · rintro ⟨-, h⟩
            exact absurd h hi

/-- Witness for the amended C6 on the concrete two-file failing run. -/
theorem C6_amended_witness :
    (FileProcessor.runFrom FileProcessor.envDemo FileProcessor.alwaysRun FileProcessor.ctxDemo 0
        [(0, "/in/a.txt".data), (1, "/in/b.txt".data)]
        FileProcessor.stZero).1.evs.countP FileProcessor.isSleptEv =
      ([(0, "/in/a.txt".data), (1, "/in/b.txt".data)] : List (Nat × PyStr)).countP (fun it =>
        (FileProcessor.itemErr FileProcessor.envDemo FileProcessor.ctxDemo it).isNone &&
          decide (it.1 < FileProcessor.ctxDemo.total - 1)) ∧
    (∀ it ∈ ([(0, "/in/a.txt".data), (1, "/in/b.txt".data)] : List (Nat × PyStr)),
      (FileProcessor.Ev.slept FileProcessor.ctxDemo.processing_delay ∈
          FileProcessor.itemBlock FileProcessor.envDemo FileProcessor.ctxDemo it ↔
        (FileProcessor.itemErr FileProcessor.envDemo FileProcessor.ctxDemo it = none ∧
          it.1 < FileProcessor.ctxDemo.total - 1))) :=
  C6_amended_delay_only_after_successful_items FileProcessor.envDemo FileProcessor.ctxDemo 0
    [(0, "/in/a.txt".data), (1, "/in/b.txt".data)]

namespace FileProcessor

theorem pauseWait_ne_stopped (flags : Flags) (hrun : ∀ u, flags.running u = true) :
    ∀ fuel t s t2 s2, pauseWait flags fuel t s ≠ .stopped t2 s2 := by
  intro fuel
  induction fuel with
  | zero =>
      intro t s t2 s2
      unfold pauseWait
      by_cases hp : flags.paused t = false
      · rw [if_pos hp]
        simp
      · rw [if_neg hp]
        simp
  | succ fuel ih =>
      intro t s t2 s2
      unfold pauseWait
      by_cases hp : flags.paused t = false
      · rw [if_pos hp]
        simp
      · rw [if_neg hp]
        simp only []
        rw [if_neg (by rw [hrun (t + 1)]; simp)]
        exact ih (t + 2) (s + 1) t2 s2

theorem runFrom_running_true (env : Env) (flags : Flags) (ctx : Ctx) (pfuel : Nat)
    (hrun : ∀ u, flags.running u = true) :
    ∀ (items : List (Nat × PyStr)) (st : St),
      (runFrom env flags ctx pfuel items st).2 = .done →
      (runFrom env flags ctx pfuel items st).1.succ +
          (runFrom env flags ctx pfuel items st).1.log.length =
        st.succ + st.log.length + items.length ∧
      (runFrom env flags ctx pfuel items st).1.evs.getLast? =
        some (.finishedMsg
          (summaryMessage (runFrom env flags ctx pfuel items st).1.succ ctx.total
            (runFrom env flags ctx pfuel items st).1.log)
          (runFrom env flags ctx pfuel items st).1.log) := by
  intro items
  induction items with
  | nil =>
      intro st hdone
      unfold runFrom
      rw [if_pos (hrun st.t)]
      simp
  | cons it rest ih =>
      intro st hdone
      obtain ⟨i, fp⟩ := it
      unfold runFrom at hdone ⊢
      rw [if_neg (by rw [hrun st.t]; simp)] at hdone ⊢
      rcases hpw : pauseWait flags pfuel (st.t + 1) 0 with ⟨t2, s⟩ | ⟨t2, s⟩ | ⟨t2, s⟩
      · -- proceed
        rw [hpw] at hdone
        simp only [] at hdone ⊢
        rcases hpi : processItem env ctx.input_path ctx.output_path ctx.output_extension
            ctx.final_system_prompt fp with ⟨res, pevs⟩
        cases res with
        | failed msg =>
            rw [hpi] at hdone
            simp only [] at hdone ⊢
            have hmain := ih _ hdone
            refine ⟨?_, hmain.2⟩
            have h1 := hmain.1
            simp only [List.length_append, List.length_cons, List.length_nil] at h1 ⊢
            omega
        | success op oc =>
            rw [hpi] at hdone
            simp only [] at hdone ⊢
            by_cases hi : i < ctx.total - 1 <;>
              [rw [if_pos hi] at hdone ⊢; rw [if_neg hi] at hdone ⊢] <;>
              · have hmain := ih _ hdone
                refine ⟨?_, hmain.2⟩
                have h1 := hmain.1
                simp only [List.length_append, List.length_cons, List.length_nil] at h1 ⊢
                omega
      · -- stopped: impossible with the running flag constantly true
        exact absurd hpw (pauseWait_ne_stopped flags hrun pfuel (st.t + 1) 0 t2 s)
      · -- fuelOut: outcome would be diverged
        rw [hpw] at hdone
        simp at hdone

end FileProcessor

/-- **C10.**  Whenever the loop reaches its normal end under a running
flag that is never cleared, every file of the batch was counted exactly
once — `success_count` plus the number of error-log entries equals the
number of collected files — and the final event is the
`processing_finished` signal whose message is the summary formatted from
exactly these counts and whose payload is the error log. -/
theorem C10_success_plus_failures_equals_total
    (env : FileProcessor.Env) (flags : FileProcessor.Flags) (ctx : FileProcessor.Ctx)
    (pfuel : Nat) (files : List PyStr) (hne : files ≠ [])
    (htotal : ctx.total = files.length)
    (hrun : ∀ u, flags.running u = true)
    (hdone : (FileProcessor.runFrom env flags ctx pfuel files.enum
      FileProcessor.stZero).2 = .done) :
    (FileProcessor.runFrom env flags ctx pfuel files.enum FileProcessor.stZero).1.succ +
        (FileProcessor.runFrom env flags ctx pfuel files.enum
          FileProcessor.stZero).1.log.length = files.length ∧
    (FileProcessor.runFrom env flags ctx pfuel files.enum
        FileProcessor.stZero).1.evs.getLast? =
      some (.finishedMsg
        (FileProcessor.summaryMessage
          (FileProcessor.runFrom env flags ctx pfuel files.enum FileProcessor.stZero).1.succ
          files.length
          (FileProcessor.runFrom env flags ctx pfuel files.enum FileProcessor.stZero).1.log)
        (FileProcessor.runFrom env flags ctx pfuel files.enum FileProcessor.stZero).1.log) := by
  have hmain := FileProcessor.runFrom_running_true env flags ctx pfuel hrun files.enum
    FileProcessor.stZero hdone
  constructor
  · have h1 := hmain.1
    simpa [FileProcessor.stZero] using h1
  · rw [← htotal]
    exact hmain.2

/-- Witness for C10 on the concrete two-file failing run: both files land
in the error log, `0 + 2 = 2`, and the final event carries the
`Processing finished with issues` summary. -/
theorem C10_witness :
    ((["/in/a.txt".data, "/in/b.txt".data] : List PyStr) ≠ [] ∧
      FileProcessor.ctxDemo.total = (["/in/a.txt".data, "/in/b.txt".data] : List PyStr).length ∧
      (∀ u, FileProcessor.alwaysRun.running u = true) ∧
      (FileProcessor.runFrom FileProcessor.envDemo FileProcessor.alwaysRun FileProcessor.ctxDemo 0
        (["/in/a.txt".data, "/in/b.txt".data] : List PyStr).enum
        FileProcessor.stZero).2 = .done) ∧
    ((FileProcessor.runFrom FileProcessor.envDemo FileProcessor.alwaysRun FileProcessor.ctxDemo 0
        (["/in/a.txt".data, "/in/b.txt".data] : List PyStr).enum
        FileProcessor.stZero).1.succ +
      (FileProcessor.runFrom FileProcessor.envDemo FileProcessor.alwaysRun FileProcessor.ctxDemo 0
        (["/in/a.txt".data, "/in/b.txt".data] : List PyStr).enum
        FileProcessor.stZero).1.log.length =
        (["/in/a.txt".data, "/in/b.txt".data] : List PyStr).length ∧
      (FileProcessor.runFrom FileProcessor.envDemo FileProcessor.alwaysRun FileProcessor.ctxDemo 0
        (["/in/a.txt".data, "/in/b.txt".data] : List PyStr).enum
        FileProcessor.stZero).1.evs.getLast? =
        some (.finishedMsg
          (FileProcessor.summaryMessage
            (FileProcessor.runFrom FileProcessor.envDemo FileProcessor.alwaysRun
              FileProcessor.ctxDemo 0
              (["/in/a.txt".data, "/in/b.txt".data] : List PyStr).enum
              FileProcessor.stZero).1.succ
            (["/in/a.txt".data, "/in/b.txt".data] : List PyStr).length
            (FileProcessor.runFrom FileProcessor.envDemo FileProcessor.alwaysRun
              FileProcessor.ctxDemo 0
              (["/in/a.txt".data, "/in/b.txt".data] : List PyStr).enum
              FileProcessor.stZero).1.log)
          (FileProcessor.runFrom FileProcessor.envDemo FileProcessor.alwaysRun
            FileProcessor.ctxDemo 0
            (["/in/a.txt".data, "/in/b.txt".data] : List PyStr).enum
            FileProcessor.stZero).1.log)) :=
  ⟨⟨by decide, by decide, fun _ => rfl, by decide⟩,
    C10_success_plus_failures_equals_total FileProcessor.envDemo FileProcessor.alwaysRun
      FileProcessor.ctxDemo 0 ["/in/a.txt".data, "/in/b.txt".data]
      (by decide) (by decide) (fun _ => rfl) (by decide)⟩

namespace FileProcessor

/-- Recognizer for the `processing_finished` event. -/
def isFinishedEv : Ev → Bool
  | .finishedMsg _ _ => true
  | _ => false

/-- A loop context for a one-file batch. -/
def ctxOne : Ctx := ⟨"/in".data, "/out".data, [], "sys", 1, 1⟩

/-- Flags describing `stop()` arriving after the loop-top poll of the last
iteration: the running flag is still set at polls 0 and 1 and cleared
from poll 2 on. -/
def stopDuringLastFlags : Flags := ⟨fun t => decide (t < 2), fun _ => false⟩

/-- Flags describing `stop()` arriving (from poll 2 on) while the loop is
paused. -/
def stopWhilePausedFlags : Flags := ⟨fun t => decide (t < 2), fun _ => true⟩

end FileProcessor

/-- Counterexample to **C3** as stated: one file, and the running flag is
cleared right after that (last) iteration's loop-top poll.  The iteration
in progress completes, the `for` loop ends, and line 178's
`if self._is_running:` is false — so `processing_finished` is never
emitted at all, while the claim requires a `Processing stopped by user.`
emission.  The trace is just the progress signal and the API send. -/
theorem C3_counterexample :
    FileProcessor.stopDuringLastFlags.running 0 = true ∧
    FileProcessor.stopDuringLastFlags.running 2 = false ∧
    (FileProcessor.runFrom FileProcessor.envDemo FileProcessor.stopDuringLastFlags
      FileProcessor.ctxOne 1 [(0, "/in/a.txt".data)] FileProcessor.stZero).2 = .done ∧
    (FileProcessor.runFrom FileProcessor.envDemo FileProcessor.stopDuringLastFlags
      FileProcessor.ctxOne 1 [(0, "/in/a.txt".data)] FileProcessor.stZero).1.evs =
      [.progress 1 1 "a.txt".data, .apiSend "a.txt".data] ∧
    (FileProcessor.runFrom FileProcessor.envDemo FileProcessor.stopDuringLastFlags
      FileProcessor.ctxOne 1 [(0, "/in/a.txt".data)]
      FileProcessor.stZero).1.evs.countP FileProcessor.isFinishedEv = 0 :=
  ⟨by decide, by decide, by decide, by decide, by decide⟩

/-- **C3 (amended).**  Once `stop()` has cleared the running flag (all
polls from `T` on read `false`), the loop makes no further progress from
the next iteration boundary on: nothing more is logged or counted, no
further file is sent, and it emits `processing_finished` with
`Processing stopped by user.` and the errors accumulated so far —
*unless* the iteration in progress was the last one (no items remain), in
which case nothing at all is emitted.  When the stop arrives while the
loop is paused, the busy-wait itself exits through its running-flag check
after one more half-second sleep. -/
theorem C3_amended_stop_within_one_iteration
    (env : FileProcessor.Env) (flags : FileProcessor.Flags) (ctx : FileProcessor.Ctx)
    (pfuel T : Nat)
    (hstop : ∀ u, T ≤ u → flags.running u = false) :
    (∀ (items : List (Nat × PyStr)) (st : FileProcessor.St), T ≤ st.t →
      (FileProcessor.runFrom env flags ctx pfuel items st).2 = .done ∧
      (FileProcessor.runFrom env flags ctx pfuel items st).1.log = st.log ∧
      (FileProcessor.runFrom env flags ctx pfuel items st).1.succ = st.succ ∧
      (items = [] →
        (FileProcessor.runFrom env flags ctx pfuel items st).1.evs = st.evs) ∧
      (items ≠ [] →
        (FileProcessor.runFrom env flags ctx pfuel items st).1.evs =
          st.evs ++ [.finishedMsg "Processing stopped by user." st.log])) ∧
    (∀ fuel u, T ≤ u → flags.paused u = true →
      FileProcessor.pauseWait flags (fuel + 1) u 0 = .stopped (u + 2) 1) := by
  constructor
  · intro items st hT
    cases items with
    | nil =>
        unfold FileProcessor.runFrom
        rw [if_neg (by rw [hstop st.t hT]; simp)]
        simp
    | cons it rest =>
        obtain ⟨i, fp⟩ := it
        unfold FileProcessor.runFrom
        rw [if_pos (hstop st.t hT)]
        simp
  · intro fuel u hu hp
    unfold FileProcessor.pauseWait
    rw [if_neg (by rw [hp]; simp)]
    simp only []
    rw [if_pos (hstop (u + 1) (by omega))]

/-- Witness for the amended C3, with the stop arriving while paused. -/
theorem C3_amended_witness :
    (∀ u, 2 ≤ u → FileProcessor.stopWhilePausedFlags.running u = false) ∧
    ((∀ (items : List (Nat × PyStr)) (st : FileProcessor.St), 2 ≤ st.t →
      (FileProcessor.runFrom FileProcessor.envDemo FileProcessor.stopWhilePausedFlags
        FileProcessor.ctxOne 3 items st).2 = .done ∧
      (FileProcessor.runFrom FileProcessor.envDemo FileProcessor.stopWhilePausedFlags
        FileProcessor.ctxOne 3 items st).1.log = st.log ∧
      (FileProcessor.runFrom FileProcessor.envDemo FileProcessor.stopWhilePausedFlags
        FileProcessor.ctxOne 3 items st).1.succ = st.succ ∧
      (items = [] →
        (FileProcessor.runFrom FileProcessor.envDemo FileProcessor.stopWhilePausedFlags
          FileProcessor.ctxOne 3 items st).1.evs = st.evs) ∧
      (items ≠ [] →
        (FileProcessor.runFrom FileProcessor.envDemo FileProcessor.stopWhilePausedFlags
          FileProcessor.ctxOne 3 items st).1.evs =
          st.evs ++ [.finishedMsg "Processing stopped by user." st.log])) ∧
    (∀ fuel u, 2 ≤ u → FileProcessor.stopWhilePausedFlags.paused u = true →
      FileProcessor.pauseWait FileProcessor.stopWhilePausedFlags (fuel + 1) u 0 =
        .stopped (u + 2) 1)) :=
  ⟨fun u hu => by simp [FileProcessor.stopWhilePausedFlags]; omega,
    C3_amended_stop_within_one_iteration FileProcessor.envDemo
      FileProcessor.stopWhilePausedFlags FileProcessor.ctxOne 3 2
      (fun u hu => by simp [FileProcessor.stopWhilePausedFlags]; omega)⟩

namespace FileProcessor

/-- Flags of a worker that keeps running but is paused indefinitely. -/
def pausedForever : Flags := ⟨fun _ => true, fun _ => true⟩

theorem pauseWait_paused_running (flags : Flags) (hp : ∀ u, flags.paused u = true)
    (hr : ∀ u, flags.running u = true) :
    ∀ fuel t s, pauseWait flags fuel t s = .fuelOut (t + 2 * fuel + 1) (s + fuel) := by
  intro fuel
  induction fuel with
  | zero =>
      intro t s
      unfold pauseWait
      rw [if_neg (by rw [hp t]; simp)]
      simp
  | succ fuel ih =>
      intro t s
      unfold pauseWait
      rw [if_neg (by rw [hp t]; simp)]
      simp only []
      rw [if_neg (by rw [hr (t + 1)]; simp), ih (t + 2) (s + 1)]
      congr 1 <;> omega

theorem runFrom_evs_mono (env : Env) (flags : Flags) (ctx : Ctx) (pfuel : Nat) :
    ∀ (items : List (Nat × PyStr)) (st : St),
      List.IsPrefix st.evs (runFrom env flags ctx pfuel items st).1.evs := by
  intro items
  induction items with
  | nil =>
      intro st
      unfold runFrom
      by_cases h : flags.running st.t
      · rw [if_pos h]
        exact List.prefix_append ..
      · rw [if_neg h]
  | cons it rest ih =>
      intro st
      obtain ⟨i, fp⟩ := it
      unfold runFrom
      by_cases h : flags.running st.t = false
      · rw [if_pos h]
        exact List.prefix_append ..
      · rw [if_neg h]
        rcases hpw : pauseWait flags pfuel (st.t + 1) 0 with ⟨t2, s⟩ | ⟨t2, s⟩ | ⟨t2, s⟩ <;>
          simp only []
        · rcases hpi : processItem env ctx.input_path ctx.output_path ctx.output_extension
              ctx.final_system_prompt fp with ⟨res, pevs⟩
          cases res with
          | failed msg =>
              simp only []
              refine List.IsPrefix.trans ?_ (ih _)
              simp only []
              refine List.IsPrefix.trans (List.prefix_append st.evs
                (List.replicate s Ev.pauseSlept ++
                  [Ev.progress (i + 1) ctx.total (PyPath.basename fp)] ++ pevs)) ?_
              simp [List.append_assoc]
          | success op oc =>
              simp only []
              refine List.IsPrefix.trans ?_ (ih _)
              by_cases hi : i < ctx.total - 1
              · rw [if_pos hi]
                refine List.IsPrefix.trans (List.prefix_append st.evs
                  (List.replicate s Ev.pauseSlept ++
                    [Ev.progress (i + 1) ctx.total (PyPath.basename fp)] ++ pevs ++
                    [Ev.slept ctx.processing_delay])) ?_
                simp [List.append_assoc]
              · rw [if_neg hi]
                refine List.IsPrefix.trans (List.prefix_append st.evs
                  (List.replicate s Ev.pauseSlept ++
                    [Ev.progress (i + 1) ctx.total (PyPath.basename fp)] ++ pevs)) ?_
                simp [List.append_assoc]
        · rw [List.append_assoc]
          exact List.prefix_append ..
        · exact List.prefix_append ..

end FileProcessor

/-- **C4.**  While the pause flag stays set and the running flag stays
set, the loop makes no progress and does not terminate: for every
unfolding bound `pfuel` the run is still inside the busy-wait
(`diverged`), no file has been read, sent or written, no progress signal
and no `processing_finished` was emitted, the log and success count are
unchanged, and the only new events are the `time.sleep(0.5)` busy-wait
sleeps, one per poll round.  And whenever the busy-wait does exit with
`proceed` (the pause flag was cleared), the events continue — after the
recorded pause sleeps — with the progress signal of exactly the file at
which the loop was suspended. -/
theorem C4_pause_suspends_without_terminating
    (flags : FileProcessor.Flags) (hrun : ∀ u, flags.running u = true) :
    (∀ (env : FileProcessor.Env) (ctx : FileProcessor.Ctx) (pfuel i : Nat) (fp : PyStr)
        (rest : List (Nat × PyStr)) (st : FileProcessor.St),
      (∀ u, flags.paused u = true) →
      FileProcessor.runFrom env flags ctx pfuel ((i, fp) :: rest) st =
        ({ st with
            t := st.t + 2 * pfuel + 2
            evs := st.evs ++ List.replicate pfuel FileProcessor.Ev.pauseSlept }, .diverged)) ∧
    (∀ (env : FileProcessor.Env) (ctx : FileProcessor.Ctx) (pfuel i : Nat) (fp : PyStr)
        (rest : List (Nat × PyStr)) (st : FileProcessor.St) (t2 s : Nat),
      FileProcessor.pauseWait flags pfuel (st.t + 1) 0 = .proceed t2 s →
      List.IsPrefix
        (st.evs ++ List.replicate s FileProcessor.Ev.pauseSlept ++
          [FileProcessor.Ev.progress (i + 1) ctx.total (PyPath.basename fp)])
        (FileProcessor.runFrom env flags ctx pfuel ((i, fp) :: rest) st).1.evs) := by
  constructor
  · intro env ctx pfuel i fp rest st hp
    unfold FileProcessor.runFrom
    rw [if_neg (by rw [hrun st.t]; simp),
      FileProcessor.pauseWait_paused_running flags hp hrun pfuel (st.t + 1) 0]
    simp only [Prod.mk.injEq]
    refine ⟨?_, trivial⟩
    have ht : st.t + 1 + 2 * pfuel + 1 = st.t + 2 * pfuel + 2 := by omega
    rw [ht]
    simp
  · intro env ctx pfuel i fp rest st t2 s hpw
    unfold FileProcessor.runFrom
    rw [if_neg (by rw [hrun st.t]; simp), hpw]
    simp only []
    rcases hpi : FileProcessor.processItem env ctx.input_path ctx.output_path
        ctx.output_extension ctx.final_system_prompt fp with ⟨res, pevs⟩
    cases res with
    | failed msg =>
        simp only []
        refine List.IsPrefix.trans ?_ (FileProcessor.runFrom_evs_mono env flags ctx pfuel _ _)
        simp only []
        refine List.IsPrefix.trans (List.prefix_append
          (st.evs ++ List.replicate s FileProcessor.Ev.pauseSlept ++
            [FileProcessor.Ev.progress (i + 1) ctx.total (PyPath.basename fp)]) pevs) ?_
        simp [List.append_assoc]
    | success op oc =>
        simp only []
        refine List.IsPrefix.trans ?_ (FileProcessor.runFrom_evs_mono env flags ctx pfuel _ _)
        by_cases hi : i < ctx.total - 1
        · rw [if_pos hi]
          refine List.IsPrefix.trans (List.prefix_append
            (st.evs ++ List.replicate s FileProcessor.Ev.pauseSlept ++
              [FileProcessor.Ev.progress (i + 1) ctx.total (PyPath.basename fp)])
            (pevs ++ [FileProcessor.Ev.slept ctx.processing_delay])) ?_
          simp [List.append_assoc]
        · rw [if_neg hi]
          refine List.IsPrefix.trans (List.prefix_append
            (st.evs ++ List.replicate s FileProcessor.Ev.pauseSlept ++
              [FileProcessor.Ev.progress (i + 1) ctx.total (PyPath.basename fp)])
            pevs) ?_
          simp [List.append_assoc]

/-- Witness for C4 under the constantly-paused flags. -/
theorem C4_witness :
    (∀ u, FileProcessor.pausedForever.running u = true) ∧
    ((∀ (env : FileProcessor.Env) (ctx : FileProcessor.Ctx) (pfuel i : Nat) (fp : PyStr)
        (rest : List (Nat × PyStr)) (st : FileProcessor.St),
      (∀ u, FileProcessor.pausedForever.paused u = true) →
      FileProcessor.runFrom env FileProcessor.pausedForever ctx pfuel ((i, fp) :: rest) st =
        ({ st with
            t := st.t + 2 * pfuel + 2
            evs := st.evs ++ List.replicate pfuel FileProcessor.Ev.pauseSlept }, .diverged)) ∧
    (∀ (env : FileProcessor.Env) (ctx : FileProcessor.Ctx) (pfuel i : Nat) (fp : PyStr)
        (rest : List (Nat × PyStr)) (st : FileProcessor.St) (t2 s : Nat),
      FileProcessor.pauseWait FileProcessor.pausedForever pfuel (st.t + 1) 0 = .proceed t2 s →
      List.IsPrefix
        (st.evs ++ List.replicate s FileProcessor.Ev.pauseSlept ++
          [FileProcessor.Ev.progress (i + 1) ctx.total (PyPath.basename fp)])
        (FileProcessor.runFrom env FileProcessor.pausedForever ctx pfuel
          ((i, fp) :: rest) st).1.evs)) :=
  ⟨fun _ => rfl, C4_pause_suspends_without_terminating FileProcessor.pausedForever
    (fun _ => rfl)⟩

/-- **C9.**  `generate_content` is total at its interface: with no model
set it returns exactly the fixed error string; when the underlying call
raises, it returns the exception message behind the `ERROR:` prefix (and
the result indeed starts with `ERROR:`); when the call returns text, that
text is returned verbatim.  Consequently the run loop distinguishes
success from failure only by the `ERROR:` prefix: a genuinely generated
text that begins with `ERROR:` is recorded as a failure and never
written. -/
theorem C9_generate_content_total_and_prefix_classified
    (api : String → String → Except String String) (sys user : String) :
    (GeminiAPIHandler.generate_content false api sys user =
      "ERROR: Model is not set or failed to initialize.") ∧
    (∀ e, api sys user = .error e →
      GeminiAPIHandler.generate_content true api sys user =
        "ERROR: An exception occurred during generation: " ++ e ∧
      pyStartswith (GeminiAPIHandler.generate_content true api sys user) "ERROR:" = true) ∧
    (∀ t, api sys user = .ok t →
      GeminiAPIHandler.generate_content true api sys user = t) ∧
    (∀ (env : FileProcessor.Env) (a b c : PyStr) (fp : PyStr) (content t : String),
      env.modelOk = true → env.read fp = .ok content → env.api sys content = .ok t →
      pyStartswith t "ERROR:" = true →
      FileProcessor.processItem env a b c sys fp =
        (.failed (FileProcessor.fileErrorMsg (PyPath.basename fp) t),
          [.apiSend (PyPath.basename fp)])) := by
  refine ⟨rfl, ?_, ?_, ?_⟩
  · intro e he
    constructor
    · unfold GeminiAPIHandler.generate_content
      rw [he]
      rfl
    · unfold GeminiAPIHandler.generate_content
      rw [he]
      simp only [Bool.not_true, pyStartswith, String.data_append]
      rw [List.isPrefixOf_iff_prefix]
      have h1 : "ERROR:".data <+: "ERROR: An exception occurred during generation: ".data := by
        decide
      have h2 : "ERROR: An exception occurred during generation: ".data <+:
          "ERROR: An exception occurred during generation: ".data ++ e.data :=
        List.prefix_append ..
      simpa using h1.trans h2
  · intro t ht
    unfold GeminiAPIHandler.generate_content
    rw [ht]
    rfl
  · intro env a b c fp content t hmodel hread hapi hpre
    unfold FileProcessor.processItem
    rw [hread]
    simp only []
    have hgen : GeminiAPIHandler.generate_content env.modelOk env.api sys content = t := by
      unfold GeminiAPIHandler.generate_content
      rw [hmodel, hapi]
      simp
    rw [hgen, if_pos hpre]

/-- Witness for C9 at a concrete API that returns an `ERROR:`-prefixed
text as a *successful* generation: the loop records it as a failure. -/
theorem C9_witness :
    (GeminiAPIHandler.generate_content false (fun _ _ => .ok "ERROR: fake") "s" "u" =
      "ERROR: Model is not set or failed to initialize.") ∧
    (∀ e, (fun (_ _ : String) => (.ok "ERROR: fake" : Except String String)) "s" "u" =
        .error e →
      GeminiAPIHandler.generate_content true (fun _ _ => .ok "ERROR: fake") "s" "u" =
        "ERROR: An exception occurred during generation: " ++ e ∧
      pyStartswith
        (GeminiAPIHandler.generate_content true (fun _ _ => .ok "ERROR: fake") "s" "u")
        "ERROR:" = true) ∧
    (∀ t, (fun (_ _ : String) => (.ok "ERROR: fake" : Except String String)) "s" "u" =
        .ok t →
      GeminiAPIHandler.generate_content true (fun _ _ => .ok "ERROR: fake") "s" "u" = t) ∧
    (∀ (env : FileProcessor.Env) (a b c : PyStr) (fp : PyStr) (content t : String),
      env.modelOk = true → env.read fp = .ok content → env.api "s" content = .ok t →
      pyStartswith t "ERROR:" = true →
      FileProcessor.processItem env a b c "s" fp =
        (.failed (FileProcessor.fileErrorMsg (PyPath.basename fp) t),
          [.apiSend (PyPath.basename fp)])) :=
  C9_generate_content_total_and_prefix_classified (fun _ _ => .ok "ERROR: fake") "s" "u"

namespace UpdateChecker

/-- `CURRENT_VERSION` (main.py, line 21). -/
def CURRENT_VERSION : String := "1.0.0"

/-- The fetched `version.json` document as read by `data.get("version")`
and `data.get("notes")` (main.py, lines 57 and 65); an absent field is
`none`. -/
structure VersionDoc where
  version : Option String
  notes : Option String

/-- `int(p)` on a decimal digit component of a release string. -/
def segToNat (p : List Char) : Option Nat :=
  if p ≠ [] ∧ p.all Char.isDigit then
    some (p.foldl (fun acc c => acc * 10 + (c.toNat - '0'.toNat)) 0)
  else none

/-- The release components of a dotted numeric version string.  Models
the external `packaging.version.parse` of main.py line 7, restricted to
the plain release segment the spec's "semantic version string" carries
(PEP 440 releases, e.g. `1.10.0` ↦ `[1, 10, 0]`). -/
def parseRelease (s : String) : List Nat :=
  (s.data.splitOn '.').map (fun p => (segToNat p).getD 0)

/-- Strict lexicographic order on equal-length numeric lists. -/
def lexLtNat : List Nat → List Nat → Bool
  | [], [] => false
  | [], _ :: _ => true
  | _ :: _, [] => false
  | a :: as, b :: bs => if a < b then true else if b < a then false else lexLtNat as bs

/-- PEP 440 release comparison: pad the shorter release with zeros, then
compare componentwise (so `1.0 == 1.0.0` and `1.10.0 > 1.9.0`). -/
def releaseLt (a b : List Nat) : Bool :=
  lexLtNat (a ++ List.replicate (max a.length b.length - a.length) 0)
    (b ++ List.replicate (max a.length b.length - b.length) 0)

/-- `UpdateChecker.run` (main.py, lines 45-74): fetch the version
document (`.error` models any raised exception — connection failure, bad
HTTP status, invalid JSON — all swallowed by the `except` arms), read
`version` with default `"0.0.0"`, compare semantically against
`CURRENT_VERSION`, and return the `update_found` payload
`(version, notes)` exactly when the fetched version is strictly newer. -/
def run (fetched : Except String VersionDoc) : Option (String × String) :=
  match fetched with
  | .error _ => none
  | .ok data =>
      let latest_version_str := data.version.getD "0.0.0"
      if releaseLt (parseRelease CURRENT_VERSION) (parseRelease latest_version_str) then
        some (latest_version_str, data.notes.getD "No release notes provided.")
      else none

end UpdateChecker

/-- **C8.**  The update checker returns nothing (and cannot raise) on any
request failure; on success it reads the `version` field with default
`"0.0.0"` and emits `update_found` with that version string and its
release notes (default text when absent) exactly when the fetched version
is strictly greater than the hardcoded current version under
semantic-version ordering.  The last conjunct separates this from string
comparison: `02.1.0` is emitted as newer than `1.0.0` although it is
smaller as a string. -/
theorem C8_update_check_semantic_comparison
    (fetched : Except String UpdateChecker.VersionDoc) :
    (∀ e, fetched = .error e → UpdateChecker.run fetched = none) ∧
    (∀ data, fetched = .ok data →
      UpdateChecker.run fetched =
        (if UpdateChecker.releaseLt
            (UpdateChecker.parseRelease UpdateChecker.CURRENT_VERSION)
            (UpdateChecker.parseRelease (data.version.getD "0.0.0")) then
          some (data.version.getD "0.0.0", data.notes.getD "No release notes provided.")
        else none)) ∧
    (UpdateChecker.run (.ok ⟨some "02.1.0", none⟩) =
        some ("02.1.0", "No release notes provided.") ∧
      PyPath.lexLt "02.1.0".data UpdateChecker.CURRENT_VERSION.data = true ∧
      UpdateChecker.run (.ok ⟨some "0.9.9", some "n"⟩) = none) := by
  refine ⟨?_, ?_, by decide, by decide, by decide⟩
  · intro e he
    rw [he]
    rfl
  · intro data hd
    rw [hd]
    rfl

/-- Witness for C8 at the concrete fetched document `1.10.0`. -/
theorem C8_witness :
    (∀ e, (.ok ⟨some "1.10.0", some "notes"⟩ :
        Except String UpdateChecker.VersionDoc) = .error e →
      UpdateChecker.run (.ok ⟨some "1.10.0", some "notes"⟩) = none) ∧
    (∀ data, (.ok ⟨some "1.10.0", some "notes"⟩ :
        Except String UpdateChecker.VersionDoc) = .ok data →
      UpdateChecker.run (.ok ⟨some "1.10.0", some "notes"⟩) =
        (if UpdateChecker.releaseLt
            (UpdateChecker.parseRelease UpdateChecker.CURRENT_VERSION)
            (UpdateChecker.parseRelease (data.version.getD "0.0.0")) then
          some (data.version.getD "0.0.0", data.notes.getD "No release notes provided.")
        else none)) ∧
    (UpdateChecker.run (.ok ⟨some "02.1.0", none⟩) =
        some ("02.1.0", "No release notes provided.") ∧
      PyPath.lexLt "02.1.0".data UpdateChecker.CURRENT_VERSION.data = true ∧
      UpdateChecker.run (.ok ⟨some "0.9.9", some "n"⟩) = none) :=
  C8_update_check_semantic_comparison (.ok ⟨some "1.10.0", some "notes"⟩)

namespace SettingsHandler

/-- `dict[k]` lookup on a JSON object, modelled as an association list
with the first matching key winning (Python dicts keep keys unique, and
every operation below preserves that). `V` abstracts the JSON value type;
`json.dump`/`json.load` round-trip a JSON-representable dict unchanged,
so the settings file itself is modelled by the stored list. -/
def dictGet {V : Type} (k : String) (d : List (String × V)) : Option V :=
  (d.find? (fun q => q.1 == k)).map (fun q => q.2)

/-- `d[k] = v`: overwrite the slot when the key is present, append
otherwise. -/
def dictSet {V : Type} (k : String) (v : V) (d : List (String × V)) : List (String × V) :=
  if d.any (fun q => q.1 == k) then
    d.map (fun q => if q.1 == k then (k, v) else q)
  else d ++ [(k, v)]

/-- `settings.update(state)` (settings_handler.py, line 64): assign every
key of `state` in order. -/
def dictUpdate {V : Type} (d state : List (String × V)) : List (String × V) :=
  state.foldl (fun acc kv => dictSet kv.1 kv.2 acc) d

/-- `save_main_window_state` (lines 60-66): load the stored settings,
`update` them with the window state, and save the result. -/
def save_main_window_state {V : Type} (stored state : List (String × V)) :
    List (String × V) :=
  dictUpdate stored state

/-- `load_main_window_state` (lines 68-74): load the settings and
`pop("api_key", None)` before returning (on a unique-key dict, dropping
every `api_key` slot). -/
def load_main_window_state {V : Type} (stored : List (String × V)) : List (String × V) :=
  stored.filter (fun q => !(q.1 == "api_key"))

theorem dictGet_dictSet_same {V : Type} (k : String) (v : V) :
    ∀ d : List (String × V), dictGet k (dictSet k v d) = some v := by
  intro d
  unfold dictSet
  by_cases hany : d.any (fun q => q.1 == k)
  · rw [if_pos hany]
    induction d with
    | nil => simp at hany
    | cons q d ih =>
        rw [List.map_cons]
        by_cases hq : q.1 = k
        · unfold dictGet
          rw [if_pos (by simp [hq]),
            List.find?_cons_of_pos (p := fun r : String × V => r.1 == k) _ (by simp)]
          rfl
        · have htail : d.any (fun r => r.1 == k) := by
            rcases List.any_eq_true.mp hany with ⟨r, hr, hrk⟩
            rcases List.mem_cons.mp hr with rfl | hr
            · exact absurd ((beq_iff_eq ..).mp hrk) hq
            · exact List.any_eq_true.mpr ⟨r, hr, hrk⟩
          unfold dictGet
          rw [if_neg (by simp [hq]),
            List.find?_cons_of_neg (p := fun r : String × V => r.1 == k) _ (by simp [hq])]
          exact ih htail
  · rw [if_neg hany]
    induction d with
    | nil =>
        unfold dictGet
        rw [List.nil_append,
          List.find?_cons_of_pos (p := fun r : String × V => r.1 == k) _ (by simp)]
        rfl
    | cons q d ih =>
        have hq : ¬ ((fun r : String × V => r.1 == k) q) = true := by
          intro hcontr
          exact hany (List.any_eq_true.mpr ⟨q, by simp, hcontr⟩)
        have htail : ¬ (d.any (fun r => r.1 == k)) = true := by
          intro hcontr
          rcases List.any_eq_true.mp hcontr with ⟨r, hr, hrk⟩
          exact hany (List.any_eq_true.mpr ⟨r, by simp [hr], hrk⟩)
        unfold dictGet
        rw [List.cons_append, List.find?_cons_of_neg (p := fun r : String × V => r.1 == k) _ hq]
        exact ih htail

theorem find?_set_map {V : Type} (k k2 : String) (v : V) (h : k ≠ k2) :
    ∀ d : List (String × V),
      List.find? (fun q => q.1 == k) (d.map (fun q => if q.1 == k2 then (k2, v) else q)) =
        List.find? (fun q => q.1 == k) d := by
  intro d
  induction d with
  | nil => rfl
  | cons q d ih =>
      rw [List.map_cons]
      by_cases hq : q.1 = k2
      · rw [if_pos (by simp [hq])]
        rw [List.find?_cons_of_neg (p := fun r : String × V => r.1 == k) _ (by simp [Ne.symm h]),
          List.find?_cons_of_neg (p := fun r : String × V => r.1 == k) _ (by simp [hq, Ne.symm h])]
        exact ih
      · rw [if_neg (by simp [hq])]
        by_cases hqk : q.1 = k
        · rw [List.find?_cons_of_pos (p := fun r : String × V => r.1 == k) _ (by simp [hqk]),
            List.find?_cons_of_pos (p := fun r : String × V => r.1 == k) _ (by simp [hqk])]
        · rw [List.find?_cons_of_neg (p := fun r : String × V => r.1 == k) _ (by simp [hqk]),
            List.find?_cons_of_neg (p := fun r : String × V => r.1 == k) _ (by simp [hqk])]
          exact ih

theorem find?_append_miss {V : Type} (k k2 : String) (v : V) (h : k ≠ k2) :
    ∀ d : List (String × V),
      List.find? (fun q => q.1 == k) (d ++ [(k2, v)]) =
        List.find? (fun q => q.1 == k) d := by
  intro d
  induction d with
  | nil =>
      rw [List.nil_append,
        List.find?_cons_of_neg (p := fun r : String × V => r.1 == k) _ (by simp [Ne.symm h])]
  | cons q d ih =>
      rw [List.cons_append]
      by_cases hqk : q.1 = k
      · rw [List.find?_cons_of_pos (p := fun r : String × V => r.1 == k) _ (by simp [hqk]),
          List.find?_cons_of_pos (p := fun r : String × V => r.1 == k) _ (by simp [hqk])]
      · rw [List.find?_cons_of_neg (p := fun r : String × V => r.1 == k) _ (by simp [hqk]),
          List.find?_cons_of_neg (p := fun r : String × V => r.1 == k) _ (by simp [hqk])]
        exact ih

theorem dictGet_dictSet_other {V : Type} (k k2 : String) (v : V) (d : List (String × V))
    (h : k ≠ k2) : dictGet k (dictSet k2 v d) = dictGet k d := by
  unfold dictSet dictGet
  by_cases hany : d.any (fun q => q.1 == k2)
  · rw [if_pos hany, find?_set_map k k2 v h d]
  · rw [if_neg hany, find?_append_miss k k2 v h d]

theorem dictGet_dictUpdate_of_not_mem {V : Type} (k : String) :
    ∀ (state d : List (String × V)), (∀ kv ∈ state, kv.1 ≠ k) →
      dictGet k (dictUpdate d state) = dictGet k d := by
  intro state
  induction state with
  | nil => intro d _; rfl
  | cons kv state ih =>
      intro d hmem
      unfold dictUpdate
      rw [List.foldl_cons]
      have h1 := ih (dictSet kv.1 kv.2 d) (fun q hq => hmem q (by simp [hq]))
      unfold dictUpdate at h1
      rw [h1, dictGet_dictSet_other k kv.1 kv.2 d (Ne.symm (hmem kv (by simp)))]

theorem dictGet_dictUpdate_of_get {V : Type} (k : String) (v : V) :
    ∀ (state d : List (String × V)), (state.map Prod.fst).Nodup →
      dictGet k state = some v → dictGet k (dictUpdate d state) = some v := by
  intro state
  induction state with
  | nil =>
      intro d _ hget
      simp [dictGet] at hget
  | cons kv state ih =>
      intro d hnd hget
      rw [List.map_cons, List.nodup_cons] at hnd
      unfold dictUpdate
      rw [List.foldl_cons]
      by_cases hk : kv.1 = k
      · subst hk
        have hv : v = kv.2 := by
          unfold dictGet at hget
          rw [List.find?_cons_of_pos (p := fun r : String × V => r.1 == kv.1) _ (by simp)] at hget
          simpa using hget.symm
        have hnotmem : ∀ q ∈ state, q.1 ≠ kv.1 := by
          intro q hq hcontr
          exact hnd.1 (hcontr ▸ List.mem_map_of_mem Prod.fst hq)
        have h1 := dictGet_dictUpdate_of_not_mem kv.1 state (dictSet kv.1 kv.2 d) hnotmem
        unfold dictUpdate at h1
        rw [h1, dictGet_dictSet_same kv.1 kv.2 d, hv]
      · have hget2 : dictGet k state = some v := by
          unfold dictGet at hget ⊢
          rwa [List.find?_cons_of_neg (p := fun r : String × V => r.1 == k) _ (by simp [hk])] at hget
        have h1 := ih (dictSet kv.1 kv.2 d) hnd.2 hget2
        unfold dictUpdate at h1
        exact h1

theorem dictGet_pop_api_key {V : Type} (stored : List (String × V)) :
    dictGet "api_key" (load_main_window_state stored) = none := by
  unfold load_main_window_state
  induction stored with
  | nil => rfl
  | cons q stored ih =>
      by_cases hq : q.1 = "api_key"
      · rw [List.filter_cons_of_neg (by simp [hq])]
        exact ih
      · rw [List.filter_cons_of_pos (by simp [hq])]
        unfold dictGet
        rw [List.find?_cons_of_neg (p := fun r : String × V => r.1 == "api_key") _ (by simp [hq])]
        exact ih

theorem dictGet_pop_other {V : Type} (k : String) (stored : List (String × V))
    (h : k ≠ "api_key") :
    dictGet k (load_main_window_state stored) = dictGet k stored := by
  unfold load_main_window_state
  induction stored with
  | nil => rfl
  | cons q stored ih =>
      by_cases hq : q.1 = "api_key"
      · rw [List.filter_cons_of_neg (by simp [hq])]
        unfold dictGet
        rw [List.find?_cons_of_neg (p := fun r : String × V => r.1 == k) _ (by simp [hq, Ne.symm h])]
        exact ih
      · rw [List.filter_cons_of_pos (by simp [hq])]
        by_cases hqk : q.1 = k
        · unfold dictGet
          rw [List.find?_cons_of_pos (p := fun r : String × V => r.1 == k) _ (by simp [hqk]),
            List.find?_cons_of_pos (p := fun r : String × V => r.1 == k) _ (by simp [hqk])]
        · unfold dictGet
          rw [List.find?_cons_of_neg (p := fun r : String × V => r.1 == k) _ (by simp [hqk]),
            List.find?_cons_of_neg (p := fun r : String × V => r.1 == k) _ (by simp [hqk])]
          exact ih

end SettingsHandler

/-- **C7.**  For every stored settings dict and every window-state dict
(unique keys), saving the state and then loading the main-window state
returns a dict that contains every saved key with its saved value —
except `api_key`, which is never present in the result of
`load_main_window_state`, even when it was saved or already stored. -/
theorem C7_window_state_roundtrip_excludes_api_key {V : Type}
    (stored state : List (String × V)) (hnd : (state.map Prod.fst).Nodup) :
    (∀ k v, SettingsHandler.dictGet k state = some v → k ≠ "api_key" →
      SettingsHandler.dictGet k
        (SettingsHandler.load_main_window_state
          (SettingsHandler.save_main_window_state stored state)) = some v) ∧
    SettingsHandler.dictGet "api_key"
      (SettingsHandler.load_main_window_state
        (SettingsHandler.save_main_window_state stored state)) = none := by
  constructor
  · intro k v hget hk
    rw [SettingsHandler.dictGet_pop_other k _ hk]
    exact SettingsHandler.dictGet_dictUpdate_of_get k v state stored hnd hget
  · exact SettingsHandler.dictGet_pop_api_key _

/-- Witness for C7 on a concrete store and window state (the state even
tries to save an `api_key`, which the load still excludes). -/
theorem C7_witness :
    ((([("window", "w"), ("api_key", "K")] : List (String × String)).map Prod.fst).Nodup) ∧
    ((∀ k v, SettingsHandler.dictGet k
        ([("window", "w"), ("api_key", "K")] : List (String × String)) = some v →
        k ≠ "api_key" →
      SettingsHandler.dictGet k
        (SettingsHandler.load_main_window_state
          (SettingsHandler.save_main_window_state
            [("api_key", "SECRET"), ("x", "1")] [("window", "w"), ("api_key", "K")])) =
        some v) ∧
    SettingsHandler.dictGet "api_key"
      (SettingsHandler.load_main_window_state
        (SettingsHandler.save_main_window_state
          [("api_key", "SECRET"), ("x", "1")] [("window", "w"), ("api_key", "K")])) =
      none) :=
  ⟨by decide,
    C7_window_state_roundtrip_excludes_api_key [("api_key", "SECRET"), ("x", "1")]
      [("window", "w"), ("api_key", "K")] (by decide)⟩

namespace FileProcessor

/-- One directory visited by `os.walk`: its path, its subdirectory names
and its file names. -/
structure WalkEntry where
  dirpath : PyStr
  dirnames : List PyStr
  filenames : List PyStr
  deriving DecidableEq

/-- The pre-flight report dictionary of `scan_input_folder` (line 30),
with the formats set modelled as its list of distinct members in
insertion order. -/
structure ScanReport where
  files_found : Nat
  subfolders_found : Bool
  formats : List PyStr
  output_has_files : Bool
  warnings : List String
  deriving DecidableEq

/-- The report all fields start from (line 30). -/
def emptyReport : ScanReport :=
  { files_found := 0
    subfolders_found := false
    formats := []
    output_has_files := false
    warnings := [] }

/-- `set.add` on the formats set. -/
def setAdd (s : List PyStr) (x : PyStr) : List PyStr :=
  if x ∈ s then s else s ++ [x]

/-- The format bucket a counted file falls into (lines 49-50): its
lower-cased `splitext` extension, or the `.no_extension` placeholder when
that extension is empty. -/
def extBucket (filename : PyStr) : PyStr :=
  let ext := PyPath.pyLower (PyPath.splitext filename).2
  if ext ≠ [] then ext else ".no_extension".data

/-- The inner `for filename in filenames` loop (lines 47-50). -/
def scanFiles (acc : ScanReport) (filenames : List PyStr) : ScanReport :=
  filenames.foldl (fun acc filename =>
    { acc with
      files_found := acc.files_found + 1
      formats := setAdd acc.formats (extBucket filename) }) acc

/-- The body of the `os.walk` loop for one visited directory (lines
39-51): mark non-root directories as subfolders, then count files unless
this is a skipped non-root directory. -/
def scanStep (input_path : PyStr) (process_subfolders : Bool) (acc : ScanReport)
    (e : WalkEntry) : ScanReport :=
  let acc := if e.dirpath ≠ input_path then { acc with subfolders_found := true } else acc
  if ¬ process_subfolders ∧ e.dirpath ≠ input_path then acc
  else scanFiles acc e.filenames

/-- The `os.walk` fold of lines 39-51. -/
def scanWalk (input_path : PyStr) (process_subfolders : Bool)
    (entries : List WalkEntry) (acc0 : ScanReport) : ScanReport :=
  entries.foldl (scanStep input_path process_subfolders) acc0

/-- Stable ascending insertion of a string into a sorted list. -/
def insertSorted (x : PyStr) : List PyStr → List PyStr
  | [] => [x]
  | y :: ys => if PyPath.lexLt y x then y :: insertSorted x ys else x :: y :: ys

/-- `sorted(list(...))` on strings: ascending codepoint order. -/
def pySorted (l : List PyStr) : List PyStr := l.foldr insertSorted []

/-- `', '.join(sorted(list(formats)))` (line 61). -/
def sortedFormatsText (formats : List PyStr) : PyStr :=
  List.intercalate ", ".data (pySorted formats)

/-- The warning of line 58. -/
def warnSubfolders : String :=
  "• Input folder contains subfolders. They will be ignored. (Enable 'Process Subfolders' to include them)."

/-- The warning of line 61, carrying the sorted formats list. -/
def warnFormats (formats : List PyStr) : String :=
  "• Multiple file formats found: " ++ String.mk (sortedFormatsText formats) ++ "."

/-- The warning of line 62. -/
def warnOutput : String := "• Output folder is not empty. Existing files may be overwritten."

/-- The warning of line 63. -/
def warnNoFiles : String := "• No files found in the input folder."

/-- `FileProcessor.scan_input_folder` (file_processor.py, lines 25-64).
The filesystem appears as the result of `os.walk(input_path)` (`none`
when `input_path` is not a directory) and as the entry list of
`os.scandir(output_path)` (`none` when `output_path` is not a
directory). -/
def scan_input_folder (input_path : PyStr) (walk : Option (List WalkEntry))
    (output_entries : Option (List PyStr)) (process_subfolders : Bool) : ScanReport :=
  match walk with
  | none => { emptyReport with warnings := ["Input path is not a valid folder."] }
  | some entries =>
      let report := scanWalk input_path process_subfolders entries emptyReport
      let report :=
        match output_entries with
        | some l => if l ≠ [] then { report with output_has_files := true } else report
        | none => report
      let report :=
        if report.subfolders_found ∧ ¬ process_subfolders then
          { report with warnings := report.warnings ++ [warnSubfolders] }
        else report
      let report :=
        if report.formats.length > 1 then
          { report with warnings := report.warnings ++ [warnFormats report.formats] }
        else report
      let report :=
        if report.output_has_files then
          { report with warnings := report.warnings ++ [warnOutput] }
        else report
      if report.files_found = 0 then
        { report with warnings := report.warnings ++ [warnNoFiles] }
      else report

/-- The files the scan counts: every file when subfolders are processed,
only the root entry's files otherwise. -/
def countedFiles (input_path : PyStr) (process_subfolders : Bool)
    (entries : List WalkEntry) : List PyStr :=
  (entries.filter (fun e => process_subfolders || e.dirpath == input_path)).flatMap
    (fun e => e.filenames)

/-- The code's distinct format buckets of a file list, in insertion
order. -/
def distinctBuckets (filenames : List PyStr) : List PyStr :=
  filenames.foldl (fun acc f => setAdd acc (extBucket f)) []

/-- Stated from the claim's words, for comparison with the code: the
distinct lower-cased `splitext` extensions of the counted files. -/
def specDistinctExtensions (filenames : List PyStr) : List PyStr :=
  filenames.foldl (fun acc f => setAdd acc (PyPath.pyLower (PyPath.splitext f).2)) []

/-- Recognizer for the multiple-formats warning text. -/
def isFormatsWarning (w : String) : Bool :=
  "• Multiple file formats found".data.isPrefixOf w.data

end FileProcessor

namespace FileProcessor

theorem scanFiles_spec : ∀ (fns : List PyStr) (acc : ScanReport),
    scanFiles acc fns =
      { acc with
        files_found := acc.files_found + fns.length
        formats := fns.foldl (fun fs f => setAdd fs (extBucket f)) acc.formats } := by
  intro fns
  induction fns with
  | nil =>
      intro acc
      simp [scanFiles]
  | cons f fns ih =>
      intro acc
      unfold scanFiles
      rw [List.foldl_cons]
      have h1 := ih { acc with
        files_found := acc.files_found + 1
        formats := setAdd acc.formats (extBucket f) }
      unfold scanFiles at h1
      rw [h1]
      simp
      omega

theorem scanStep_root (input : PyStr) (psf : Bool) (acc : ScanReport) (e : WalkEntry)
    (hd : e.dirpath = input) : scanStep input psf acc e = scanFiles acc e.filenames := by
  unfold scanStep
  simp [hd]

theorem scanStep_sub_skip (input : PyStr) (acc : ScanReport) (e : WalkEntry)
    (hd : e.dirpath ≠ input) :
    scanStep input false acc e = { acc with subfolders_found := true } := by
  unfold scanStep
  simp [hd]

theorem scanStep_sub_count (input : PyStr) (acc : ScanReport) (e : WalkEntry)
    (hd : e.dirpath ≠ input) :
    scanStep input true acc e = scanFiles { acc with subfolders_found := true } e.filenames := by
  unfold scanStep
  simp [hd]

theorem scanWalk_spec (input : PyStr) (psf : Bool) :
    ∀ (entries : List WalkEntry) (acc : ScanReport),
      scanWalk input psf entries acc =
        { acc with
          files_found := acc.files_found + (countedFiles input psf entries).length
          subfolders_found :=
            acc.subfolders_found || entries.any (fun e => !(e.dirpath == input))
          formats := (countedFiles input psf entries).foldl
            (fun fs f => setAdd fs (extBucket f)) acc.formats } := by
  intro entries
  induction entries with
  | nil =>
      intro acc
      simp [scanWalk, countedFiles]
  | cons e entries ih =>
      intro acc
      have hcons : scanWalk input psf (e :: entries) acc =
          scanWalk input psf entries (scanStep input psf acc e) := by
        unfold scanWalk
        rw [List.foldl_cons]
      rw [hcons, ih (scanStep input psf acc e)]
      have hcf : countedFiles input psf (e :: entries) =
          (if psf || e.dirpath == input then e.filenames else []) ++
            countedFiles input psf entries := by
        unfold countedFiles
        by_cases hc : psf || e.dirpath == input
        · rw [List.filter_cons_of_pos (by simpa using hc), if_pos hc, List.flatMap_cons]
        · rw [List.filter_cons_of_neg (by simpa using hc), if_neg hc, List.nil_append]
      rw [hcf]
      by_cases hd : e.dirpath = input
      · rw [scanStep_root input psf acc e hd, scanFiles_spec]
        simp [hd, List.foldl_append, Nat.add_assoc]
      · cases psf with
        | false =>
            rw [scanStep_sub_skip input acc e hd]
            simp [hd]
        | true =>
            rw [scanStep_sub_count input acc e hd, scanFiles_spec]
            simp [hd, List.foldl_append, Nat.add_assoc]

end FileProcessor

namespace FileProcessor

theorem subfolders_any (input : PyStr) (first : WalkEntry) (rest : List WalkEntry)
    (hfirst : first.dirpath = input) (hrest : ∀ e ∈ rest, e.dirpath ≠ input) :
    ((first :: rest).any (fun e => !(e.dirpath == input))) = !rest.isEmpty := by
  rw [List.any_cons]
  cases rest with
  | nil => simp [hfirst]
  | cons e2 rs =>
      have h2 : (e2.dirpath == input) = false := by
        simpa using hrest e2 (by simp)
      simp [hfirst, List.any_cons, h2]

theorem scan_input_folder_spec (input : PyStr) (psf : Bool)
    (first : WalkEntry) (rest : List WalkEntry) (out : Option (List PyStr))
    (hfirst : first.dirpath = input) (hrest : ∀ e ∈ rest, e.dirpath ≠ input) :
    scan_input_folder input (some (first :: rest)) out psf =
      { files_found := (countedFiles input psf (first :: rest)).length
        subfolders_found := !rest.isEmpty
        formats := distinctBuckets (countedFiles input psf (first :: rest))
        output_has_files := (match out with | some l => !l.isEmpty | none => false)
        warnings :=
          (if ((!rest.isEmpty : Bool) = true) ∧ ¬ (psf = true) then [warnSubfolders] else []) ++
          (if (distinctBuckets (countedFiles input psf (first :: rest))).length > 1 then
            [warnFormats (distinctBuckets (countedFiles input psf (first :: rest)))] else []) ++
          (if ((match out with | some l => !l.isEmpty | none => false : Bool) = true) then
            [warnOutput] else []) ++
          (if (countedFiles input psf (first :: rest)).length = 0 then
            [warnNoFiles] else []) } := by
  unfold scan_input_folder
  rcases out with _ | l <;> cases psf
  · simp only []
    have hspec := scanWalk_spec input false (first :: rest) emptyReport
    rw [subfolders_any input first rest hfirst hrest] at hspec
    rw [hspec]
    have hDB : List.foldl (fun fs f => setAdd fs (extBucket f)) emptyReport.formats
        (countedFiles input false (first :: rest)) =
        distinctBuckets (countedFiles input false (first :: rest)) := rfl
    rw [hDB]
    by_cases hS : rest.isEmpty <;>
      by_cases hF : (distinctBuckets (countedFiles input false (first :: rest))).length > 1 <;>
        by_cases hN : (countedFiles input false (first :: rest)).length = 0 <;>
          simp [emptyReport, hS, hF, hN]
  · simp only []
    have hspec := scanWalk_spec input true (first :: rest) emptyReport
    rw [subfolders_any input first rest hfirst hrest] at hspec
    rw [hspec]
    have hDB : List.foldl (fun fs f => setAdd fs (extBucket f)) emptyReport.formats
        (countedFiles input true (first :: rest)) =
        distinctBuckets (countedFiles input true (first :: rest)) := rfl
    rw [hDB]
    by_cases hS : rest.isEmpty <;>
      by_cases hF : (distinctBuckets (countedFiles input true (first :: rest))).length > 1 <;>
        by_cases hN : (countedFiles input true (first :: rest)).length = 0 <;>
          simp [emptyReport, hS, hF, hN]
  · simp only []
    have hspec := scanWalk_spec input false (first :: rest) emptyReport
    rw [subfolders_any input first rest hfirst hrest] at hspec
    rw [hspec]
    have hDB : List.foldl (fun fs f => setAdd fs (extBucket f)) emptyReport.formats
        (countedFiles input false (first :: rest)) =
        distinctBuckets (countedFiles input false (first :: rest)) := rfl
    rw [hDB]
    by_cases hl : l = []
    · subst hl
      by_cases hS : rest.isEmpty <;>
        by_cases hF : (distinctBuckets (countedFiles input false (first :: rest))).length > 1 <;>
          by_cases hN : (countedFiles input false (first :: rest)).length = 0 <;>
            simp [emptyReport, hS, hF, hN]
    · have hl2 : l.isEmpty = false := by simpa using hl
      by_cases hS : rest.isEmpty <;>
        by_cases hF : (distinctBuckets (countedFiles input false (first :: rest))).length > 1 <;>
          by_cases hN : (countedFiles input false (first :: rest)).length = 0 <;>
            simp [emptyReport, hl, hl2, hS, hF, hN]
  · simp only []
    have hspec := scanWalk_spec input true (first :: rest) emptyReport
    rw [subfolders_any input first rest hfirst hrest] at hspec
    rw [hspec]
    have hDB : List.foldl (fun fs f => setAdd fs (extBucket f)) emptyReport.formats
        (countedFiles input true (first :: rest)) =
        distinctBuckets (countedFiles input true (first :: rest)) := rfl
    rw [hDB]
    by_cases hl : l = []
    · subst hl
      by_cases hS : rest.isEmpty <;>
        by_cases hF : (distinctBuckets (countedFiles input true (first :: rest))).length > 1 <;>
          by_cases hN : (countedFiles input true (first :: rest)).length = 0 <;>
            simp [emptyReport, hS, hF, hN]
    · have hl2 : l.isEmpty = false := by simpa using hl
      by_cases hS : rest.isEmpty <;>
        by_cases hF : (distinctBuckets (countedFiles input true (first :: rest))).length > 1 <;>
          by_cases hN : (countedFiles input true (first :: rest)).length = 0 <;>
            simp [emptyReport, hl, hl2, hS, hF, hN]

end FileProcessor

namespace FileProcessor

theorem countedFiles_true (input : PyStr) (es : List WalkEntry) :
    countedFiles input true es = es.flatMap (fun e => e.filenames) := by
  unfold countedFiles
  rw [List.filter_eq_self.mpr]
  intro e _
  simp

theorem countedFiles_false (input : PyStr) (first : WalkEntry) (rest : List WalkEntry)
    (hfirst : first.dirpath = input) (hrest : ∀ e ∈ rest, e.dirpath ≠ input) :
    countedFiles input false (first :: rest) = first.filenames := by
  unfold countedFiles
  rw [List.filter_cons_of_pos (by simp [hfirst])]
  have hrestf : rest.filter (fun e => false || e.dirpath == input) = [] := by
    rw [List.filter_eq_nil_iff]
    intro e he
    simp [hrest e he]
  rw [hrestf, List.flatMap_cons]
  simp

theorem length_flatMap_entries : ∀ es : List WalkEntry,
    (es.flatMap (fun e => e.filenames)).length = (es.map (fun e => e.filenames.length)).sum := by
  intro es
  induction es with
  | nil => rfl
  | cons e es ih => simp [List.flatMap_cons, ih]

theorem isFormatsWarning_warnFormats (formats : List PyStr) :
    isFormatsWarning (warnFormats formats) = true := by
  unfold isFormatsWarning warnFormats
  rw [String.data_append, String.data_append, List.isPrefixOf_iff_prefix, List.append_assoc]
  exact List.IsPrefix.trans (by decide) (List.prefix_append ..)

theorem mem_ite_singleton {c : Prop} [Decidable c] (s x : String) :
    (s ∈ (if c then [x] else [])) ↔ c ∧ s = x := by
  by_cases h : c <;> simp [h]

end FileProcessor

/-- Counterexample to **C5** as stated: a directory holding the two files
`a` (no extension) and `b.no_extension`.  Two distinct lower-cased
extensions (`""` and `.no_extension`) are counted, so the claim demands a
multiple-formats warning — but the code maps the empty extension to the
literal placeholder `.no_extension`, the two files collide into one
format bucket, and the report carries no warning at all. -/
theorem C5_counterexample :
    1 < (FileProcessor.specDistinctExtensions ["a".data, "b.no_extension".data]).length ∧
    (FileProcessor.scan_input_folder "/in".data
      (some [⟨"/in".data, [], ["a".data, "b.no_extension".data]⟩]) none false).files_found = 2 ∧
    (FileProcessor.scan_input_folder "/in".data
      (some [⟨"/in".data, [], ["a".data, "b.no_extension".data]⟩]) none false).warnings = [] :=
  ⟨by decide, by decide, by decide⟩

/-- **C5 (amended).**  For every existing input directory (given as its
`os.walk` listing, root entry first), `files_found` counts the top-level
files when `process_subfolders` is false and every file of the tree when
it is true; `subfolders_found` holds exactly when the walk visited a
non-root directory (a subdirectory at any depth); the warnings contain a
multiple-formats warning exactly when the counted files fall into more
than one distinct format *bucket* — the lower-cased `splitext` extension
with the empty extension replaced by the literal `.no_extension` — an
output warning exactly when the output directory exists and is
non-empty, an ignored-subfolders warning exactly when subfolders exist
and `process_subfolders` is false, and a no-files warning exactly when
`files_found` is zero. -/
theorem C5_amended_scan_report (input : PyStr) (psf : Bool)
    (first : FileProcessor.WalkEntry) (rest : List FileProcessor.WalkEntry)
    (out : Option (List PyStr))
    (hfirst : first.dirpath = input) (hrest : ∀ e ∈ rest, e.dirpath ≠ input) :
    ((FileProcessor.scan_input_folder input (some (first :: rest)) out psf).files_found =
        (FileProcessor.countedFiles input psf (first :: rest)).length ∧
      (psf = false →
        (FileProcessor.scan_input_folder input (some (first :: rest)) out psf).files_found =
          first.filenames.length) ∧
      (psf = true →
        (FileProcessor.scan_input_folder input (some (first :: rest)) out psf).files_found =
          ((first :: rest).map (fun e => e.filenames.length)).sum)) ∧
    ((FileProcessor.scan_input_folder input (some (first :: rest)) out psf).subfolders_found =
        true ↔ rest ≠ []) ∧
    ((∃ w ∈ (FileProcessor.scan_input_folder input (some (first :: rest)) out psf).warnings,
        FileProcessor.isFormatsWarning w = true) ↔
      1 < (FileProcessor.distinctBuckets
        (FileProcessor.countedFiles input psf (first :: rest))).length) ∧
    (FileProcessor.warnOutput ∈
        (FileProcessor.scan_input_folder input (some (first :: rest)) out psf).warnings ↔
      ∃ l, out = some l ∧ l ≠ []) ∧
    (FileProcessor.warnSubfolders ∈
        (FileProcessor.scan_input_folder input (some (first :: rest)) out psf).warnings ↔
      (rest ≠ [] ∧ psf = false)) ∧
    (FileProcessor.warnNoFiles ∈
        (FileProcessor.scan_input_folder input (some (first :: rest)) out psf).warnings ↔
      (FileProcessor.scan_input_folder input (some (first :: rest)) out psf).files_found = 0) := by
  rw [FileProcessor.scan_input_folder_spec input psf first rest out hfirst hrest]
  have hni : FileProcessor.isFormatsWarning FileProcessor.warnSubfolders = false := by decide
  have hno : FileProcessor.isFormatsWarning FileProcessor.warnOutput = false := by decide
  have hnn : FileProcessor.isFormatsWarning FileProcessor.warnNoFiles = false := by decide
  have hfw := FileProcessor.isFormatsWarning_warnFormats
    (FileProcessor.distinctBuckets (FileProcessor.countedFiles input psf (first :: rest)))
  have hne1 : FileProcessor.warnSubfolders ≠ FileProcessor.warnFormats
      (FileProcessor.distinctBuckets (FileProcessor.countedFiles input psf (first :: rest))) := by
    intro h
    rw [h] at hni
    rw [hfw] at hni
    simp at hni
  have hne2 : FileProcessor.warnOutput ≠ FileProcessor.warnFormats
      (FileProcessor.distinctBuckets (FileProcessor.countedFiles input psf (first :: rest))) := by
    intro h
    rw [h] at hno
    rw [hfw] at hno
    simp at hno
  have hne3 : FileProcessor.warnNoFiles ≠ FileProcessor.warnFormats
      (FileProcessor.countedFiles input psf (first :: rest) |> FileProcessor.distinctBuckets) := by
    intro h
    rw [h] at hnn
    rw [hfw] at hnn
    simp at hnn
  refine ⟨⟨rfl, ?_, ?_⟩, ?_, ?_, ?_, ?_, ?_⟩
  · intro hpsf
    subst hpsf
    simp [FileProcessor.countedFiles_false input first rest hfirst hrest]
  · intro hpsf
    subst hpsf
    simp only [FileProcessor.countedFiles_true, FileProcessor.length_flatMap_entries]
  · cases rest <;> simp
  · constructor
    · rintro ⟨w, hwmem, hwcls⟩
      rcases List.mem_append.mp hwmem with hw | hw4
      · rcases List.mem_append.mp hw with hw | hw3
        · rcases List.mem_append.mp hw with hw1 | hw2
          · obtain ⟨-, rfl⟩ := (FileProcessor.mem_ite_singleton ..).mp hw1
            rw [hni] at hwcls
            exact absurd hwcls (by simp)
          · exact ((FileProcessor.mem_ite_singleton ..).mp hw2).1
        · obtain ⟨-, rfl⟩ := (FileProcessor.mem_ite_singleton ..).mp hw3
          rw [hno] at hwcls
          exact absurd hwcls (by simp)
      · obtain ⟨-, rfl⟩ := (FileProcessor.mem_ite_singleton ..).mp hw4
        rw [hnn] at hwcls
        exact absurd hwcls (by simp)
    · intro hF
      refine ⟨FileProcessor.warnFormats (FileProcessor.distinctBuckets
        (FileProcessor.countedFiles input psf (first :: rest))), ?_, hfw⟩
      refine List.mem_append.mpr (Or.inl (List.mem_append.mpr (Or.inl
        (List.mem_append.mpr (Or.inr ?_)))))
      exact (FileProcessor.mem_ite_singleton ..).mpr ⟨hF, rfl⟩
  · simp only [List.mem_append, FileProcessor.mem_ite_singleton]
    constructor
    · rintro (((⟨-, h⟩ | ⟨-, h⟩) | ⟨hc, -⟩) | ⟨-, h⟩)
      · exact absurd h (by decide)
      · exact absurd h hne2
      · rcases out with _ | l
        · simp at hc
        · exact ⟨l, rfl, by simpa using hc⟩
      · exact absurd h (by decide)
    · rintro ⟨l, rfl, hl⟩
      refine Or.inl (Or.inr ⟨?_, trivial⟩)
      simpa using hl
  · simp only [List.mem_append, FileProcessor.mem_ite_singleton]
    constructor
    · rintro (((⟨hc, -⟩ | ⟨-, h⟩) | ⟨-, h⟩) | ⟨-, h⟩)
      · refine ⟨?_, ?_⟩
        · intro hcontr
          rw [hcontr] at hc
          simp at hc
        · rcases hc with ⟨-, hc⟩
          simpa using hc
      · exact absurd h hne1
      · exact absurd h (by decide)
      · exact absurd h (by decide)
    · rintro ⟨hr, hpsf⟩
      subst hpsf
      refine Or.inl (Or.inl (Or.inl ⟨⟨?_, by simp⟩, trivial⟩))
      cases rest with
      | nil => exact absurd rfl hr
      | cons e2 rs => simp
  · simp only [List.mem_append, FileProcessor.mem_ite_singleton]
    constructor
    · rintro (((⟨-, h⟩ | ⟨-, h⟩) | ⟨-, h⟩) | ⟨hc, -⟩)
      · exact absurd h (by decide)
      · exact absurd h hne3
      · exact absurd h (by decide)
      · exact hc
    · intro hc
      exact Or.inr ⟨hc, trivial⟩

theorem C5_witness :
    ((⟨"/in".data, ["sub".data], ["a.txt".data, "b.MD".data]⟩ :
        FileProcessor.WalkEntry).dirpath = "/in".data) ∧
    ((⟨"/in/sub".data, [], ["c.txt".data]⟩ : FileProcessor.WalkEntry).dirpath ≠ "/in".data) ∧
    (FileProcessor.warnSubfolders ∈
        (FileProcessor.scan_input_folder "/in".data
          (some [⟨"/in".data, ["sub".data], ["a.txt".data, "b.MD".data]⟩,
                 ⟨"/in/sub".data, [], ["c.txt".data]⟩])
          (some ["x".data]) false).warnings ↔
      (([(⟨"/in/sub".data, [], ["c.txt".data]⟩ : FileProcessor.WalkEntry)] ≠
          ([] : List FileProcessor.WalkEntry)) ∧ (false : Bool) = false)) :=
  ⟨by decide, by decide,
    (C5_amended_scan_report "/in".data false
      ⟨"/in".data, ["sub".data], ["a.txt".data, "b.MD".data]⟩
      [⟨"/in/sub".data, [], ["c.txt".data]⟩]
      (some ["x".data]) (by decide) (by decide)).2.2.2.2.1⟩
